import Mathlib

/-!
# Snake: a shallow embedding of the two game variants

* `SnakeGame` : the windowed variant (`snake_game.cpp`), a state record with the
  member functions of `class SnakeGame` as state transformers.
* `Main`      : the console variant (`main.cpp`), one pass of the `while(game)` loop.

Conventions.

* `int` values are `Int`: scores, coordinates and intervals stay far inside the 32-bit
  range in any game that can be played, so no wrap-around is modelled.  The float
  `gameSpeed` only ever holds the integers `200, 195, ..., 50`, which are exact in single
  precision, so it is an `Int` too.
* The random generator is the list of its future outputs; a `do ... while` rejection loop
  consumes that list and yields `none` when the list is used up before a sample is accepted.
* Undefined behaviour of `snake[0]` / `snake.back()` on an empty vector is `none`.
* The two clocks are read by `update`; their readings are arguments of `update`.
* Rendering, the font and the high-score file writes have no effect on the state and are
  left out.
-/

namespace SnakeGame

/-! ## Types and constants (`snake_game.cpp` lines 8-33) -/

inductive GameState where
  | MENU
  | PLAYING
  | PAUSED
  | GAME_OVER
  deriving DecidableEq, Repr

inductive Direction where
  | UP
  | DOWN
  | LEFT
  | RIGHT
  deriving DecidableEq, Repr

structure Position where
  x : Int
  y : Int
  deriving DecidableEq, Repr

/-- The `operator==` of `Position`. -/
def Position.eq (a b : Position) : Bool :=
  a.x == b.x && a.y == b.y

def WINDOW_WIDTH : Int := 800
def WINDOW_HEIGHT : Int := 600
def CELL_SIZE : Int := 20
def GRID_WIDTH : Int := WINDOW_WIDTH / CELL_SIZE
def GRID_HEIGHT : Int := WINDOW_HEIGHT / CELL_SIZE

/-- One pass of a rejection loop draws `xDist(gen)` and then `yDist(gen)`.  The two
distributions are `uniform_int_distribution<>(1, GRID_WIDTH - 2)` and
`uniform_int_distribution<>(1, GRID_HEIGHT - 2)`: the outputs are `1 + i` with `i < 38`
and `1 + j` with `j < 28`. -/
structure Sample where
  i : Fin 38
  j : Fin 28
  deriving DecidableEq, Repr

def xDist (r : Sample) : Int := 1 + (r.i.val : Int)
def yDist (r : Sample) : Int := 1 + (r.j.val : Int)

/-- The keys the handlers distinguish; every other key code is `Other`. -/
inductive Key where
  | Enter
  | Space
  | Escape
  | Q
  | R
  | Up
  | W
  | Down
  | S
  | Left
  | A
  | Right
  | D
  | Other
  deriving DecidableEq, Repr

end SnakeGame

open SnakeGame in
/-- The data members of `class SnakeGame` that the simulation reads or writes.
`windowOpen` stands for `window.isOpen()`, `gen` for the outputs the generator is still
going to produce. -/
structure SnakeGame where
  windowOpen : Bool
  currentState : GameState
  snake : List Position
  direction : Direction
  nextDirection : Direction
  food : Position
  specialFood : Position
  hasSpecialFood : Bool
  score : Int
  highScore : Int
  gameSpeed : Int
  gen : List Sample
  deriving DecidableEq, Repr

namespace SnakeGame

/-! ## Member functions -/

/-- Lines 138-143. -/
def isSnakePosition (snake : List Position) (pos : Position) : Bool :=
  match snake with
  | [] => false
  | segment :: rest => if segment.eq pos then true else isSnakePosition rest pos

/-- The loop of `generateFood` (lines 122-125) over the generator outputs: the first
sample that is not a snake position is kept. -/
def generateFoodLoop (snake : List Position) : List Sample → Option (Position × List Sample)
  | [] => none
  | r :: rest =>
    let food : Position := ⟨xDist r, yDist r⟩
    if isSnakePosition snake food then generateFoodLoop snake rest else some (food, rest)

/-- Lines 121-126. -/
def generateFood (g : SnakeGame) : Option SnakeGame :=
  match generateFoodLoop g.snake g.gen with
  | none => none
  | some (food, rest) => some { g with food := food, gen := rest }

/-- The loop of `generateSpecialFood` (lines 129-132). -/
def generateSpecialFoodLoop (snake : List Position) (food : Position) :
    List Sample → Option (Position × List Sample)
  | [] => none
  | r :: rest =>
    let specialFood : Position := ⟨xDist r, yDist r⟩
    if isSnakePosition snake specialFood || specialFood.eq food then
      generateSpecialFoodLoop snake food rest
    else some (specialFood, rest)

/-- Lines 128-136; `specialFoodTimer.restart()` has no effect on the record. -/
def generateSpecialFood (g : SnakeGame) : Option SnakeGame :=
  match generateSpecialFoodLoop g.snake g.food g.gen with
  | none => none
  | some (specialFood, rest) =>
    some { g with specialFood := specialFood, gen := rest, hasSpecialFood := true }

/-- Lines 106-119. -/
def initializeGame (g : SnakeGame) : Option SnakeGame :=
  generateFood
    { g with
      snake := [⟨GRID_WIDTH / 2, GRID_HEIGHT / 2⟩,
                ⟨GRID_WIDTH / 2 - 1, GRID_HEIGHT / 2⟩,
                ⟨GRID_WIDTH / 2 - 2, GRID_HEIGHT / 2⟩]
      direction := Direction.RIGHT
      nextDirection := Direction.RIGHT
      score := 0
      gameSpeed := 200
      hasSpecialFood := false }

/-- Lines 90-96: `file` is the integer read from `highscore.txt`, `none` when the file
cannot be opened. -/
def loadHighScore (g : SnakeGame) (file : Option Int) : SnakeGame :=
  match file with
  | none => g
  | some v => { g with highScore := v }

/-- The constructor, lines 63-79. -/
def construct (gen : List Sample) (file : Option Int) : Option SnakeGame :=
  initializeGame
    (loadHighScore
      { windowOpen := true
        currentState := GameState.MENU
        snake := []
        direction := Direction.RIGHT
        nextDirection := Direction.RIGHT
        food := ⟨0, 0⟩
        specialFood := ⟨0, 0⟩
        hasSpecialFood := false
        score := 0
        highScore := 0
        gameSpeed := 200
        gen := gen }
      file)

/-- Lines 172-179. -/
def handleMenuInput (g : SnakeGame) (key : Key) : Option SnakeGame :=
  if key = Key.Enter ∨ key = Key.Space then
    initializeGame { g with currentState := GameState.PLAYING }
  else if key = Key.Escape ∨ key = Key.Q then
    some { g with windowOpen := false }
  else some g

/-- Lines 181-208. -/
def handlePlayingInput (g : SnakeGame) (key : Key) : SnakeGame :=
  if key = Key.Space then { g with currentState := GameState.PAUSED }
  else
    match key with
    | Key.Up | Key.W =>
      if g.direction ≠ Direction.DOWN then { g with nextDirection := Direction.UP } else g
    | Key.Down | Key.S =>
      if g.direction ≠ Direction.UP then { g with nextDirection := Direction.DOWN } else g
    | Key.Left | Key.A =>
      if g.direction ≠ Direction.RIGHT then { g with nextDirection := Direction.LEFT } else g
    | Key.Right | Key.D =>
      if g.direction ≠ Direction.LEFT then { g with nextDirection := Direction.RIGHT } else g
    | _ => g

/-- Lines 210-216. -/
def handlePausedInput (g : SnakeGame) (key : Key) : SnakeGame :=
  if key = Key.Space ∨ key = Key.R then { g with currentState := GameState.PLAYING }
  else if key = Key.Q ∨ key = Key.Escape then { g with currentState := GameState.MENU }
  else g

/-- Lines 218-222. -/
def handleGameOverInput (g : SnakeGame) (key : Key) : SnakeGame :=
  if key = Key.Enter ∨ key = Key.Space then { g with currentState := GameState.MENU }
  else g

/-- The `KeyPressed` branch of `handleInput`, lines 153-168. -/
def handleKey (g : SnakeGame) (key : Key) : Option SnakeGame :=
  match g.currentState with
  | GameState.MENU => handleMenuInput g key
  | GameState.PLAYING => some (handlePlayingInput g key)
  | GameState.PAUSED => some (handlePausedInput g key)
  | GameState.GAME_OVER => some (handleGameOverInput g key)

/-- Lines 306-312; `saveHighScore` writes the file and leaves the record alone. -/
def gameOver (g : SnakeGame) : SnakeGame :=
  let g1 := if g.score > g.highScore then { g with highScore := g.score } else g
  { g1 with currentState := GameState.GAME_OVER }

/-- Lines 237-249. -/
def moveSnake (g : SnakeGame) : Option SnakeGame :=
  match g.snake with
  | [] => none
  | head :: _ =>
    let newHead : Position :=
      match g.direction with
      | Direction.UP => { head with y := head.y - 1 }
      | Direction.DOWN => { head with y := head.y + 1 }
      | Direction.LEFT => { head with x := head.x - 1 }
      | Direction.RIGHT => { head with x := head.x + 1 }
    some { g with snake := (newHead :: g.snake).dropLast }

/-- The scan of lines 262-267 over the segments after the head. -/
def hitsBody (head : Position) : List Position → Bool
  | [] => false
  | segment :: rest => if segment.eq head then true else hitsBody head rest

/-- Lines 251-268. -/
def checkCollisions (g : SnakeGame) : Option SnakeGame :=
  match g.snake with
  | [] => none
  | head :: body =>
    if head.x ≤ 0 ∨ head.x ≥ GRID_WIDTH - 1 ∨ head.y ≤ 0 ∨ head.y ≥ GRID_HEIGHT - 1 then
      some (gameOver g)
    else if hitsBody head body then some (gameOver g)
    else some g

/-- The statement `snake.push_back(snake.back())`. -/
def growSnake (g : SnakeGame) : Option SnakeGame :=
  match g.snake.getLast? with
  | none => none
  | some back => some { g with snake := g.snake ++ [back] }

/-- The regular-food branch of `checkFood`, lines 274-288. -/
def checkRegularFood (g : SnakeGame) (head : Position) : Option SnakeGame :=
  if head.eq g.food then do
    let g1 ← growSnake { g with score := g.score + 1 }
    let g2 ← generateFood g1
    let g3 := if g2.gameSpeed > 50 then { g2 with gameSpeed := g2.gameSpeed - 5 } else g2
    if g3.score % 10 = 0 then generateSpecialFood g3 else some g3
  else some g

/-- The special-food branch of `checkFood`, lines 291-297. -/
def checkSpecialFood (g : SnakeGame) (head : Position) : Option SnakeGame :=
  if g.hasSpecialFood && head.eq g.specialFood then do
    let g1 ← growSnake { g with score := g.score + 5 }
    let g2 ← growSnake g1
    some { g2 with hasSpecialFood := false }
  else some g

/-- Lines 270-298. -/
def checkFood (g : SnakeGame) : Option SnakeGame :=
  match g.snake with
  | [] => none
  | head :: _ => do
    let g1 ← checkRegularFood g head
    checkSpecialFood g1 head

/-- Lines 300-304: `expired` is the outcome of
`specialFoodTimer.getElapsedTime().asSeconds() >= 5.0f`. -/
def updateSpecialFood (g : SnakeGame) (expired : Bool) : SnakeGame :=
  if g.hasSpecialFood && expired then { g with hasSpecialFood := false } else g

/-- The body of the `if` of `update`, lines 228-233: one tick. -/
def tick (g : SnakeGame) (expired : Bool) : Option SnakeGame := do
  let g1 ← moveSnake { g with direction := g.nextDirection }
  let g2 ← checkCollisions g1
  let g3 ← checkFood g2
  some (updateSpecialFood g3 expired)

/-- Lines 224-235: `elapsedMs` is `gameClock.getElapsedTime().asMilliseconds()`. -/
def update (g : SnakeGame) (elapsedMs : Int) (expired : Bool) : Option SnakeGame :=
  if g.currentState ≠ GameState.PLAYING then some g
  else if elapsedMs ≥ g.gameSpeed then tick g expired
  else some g

/-! ## Runs -/

/-- What the main loop feeds the game with: a window event polled by `handleInput`
(`Closed`, `KeyPressed`) or a call of `update` with the two clock readings. -/
inductive Event where
  | closed
  | keyPressed (key : Key)
  | update (elapsedMs : Int) (expired : Bool)
  deriving DecidableEq, Repr

/-- One event: the body of the `pollEvent` loop of `handleInput` (lines 148-168) for a
window event, resp. a call of `update`.  Events are accepted in any order and number,
which covers every order the loop of `run()` (lines 461-467) can produce. -/
def step (g : SnakeGame) : Event → Option SnakeGame
  | Event.closed => some { g with windowOpen := false }
  | Event.keyPressed key => handleKey g key
  | Event.update elapsedMs expired => update g elapsedMs expired

/-- A sequence of events, one after the other. -/
def run (g : SnakeGame) : List Event → Option SnakeGame
  | [] => some g
  | e :: es =>
    match step g e with
    | none => none
    | some g1 => run g1 es

/-- The states a game can be in: those `construct` returns, closed under `step`. -/
inductive Reachable : SnakeGame → Prop where
  | init (gen : List Sample) (file : Option Int) (g : SnakeGame) :
      construct gen file = some g → Reachable g
  | next (g g1 : SnakeGame) (e : Event) : Reachable g → step g e = some g1 → Reachable g1

/-! ## Vocabulary of the statements -/

/-- The reverse of a direction. -/
def opposite : Direction → Direction
  | Direction.UP => Direction.DOWN
  | Direction.DOWN => Direction.UP
  | Direction.LEFT => Direction.RIGHT
  | Direction.RIGHT => Direction.LEFT

/-- The cells strictly inside the wall ring. -/
def Interior (p : Position) : Prop :=
  1 ≤ p.x ∧ p.x ≤ GRID_WIDTH - 2 ∧ 1 ≤ p.y ∧ p.y ≤ GRID_HEIGHT - 2

/-- The head after `moveSnake` when the snake starts with `head` and moves in `d`. -/
def movedHead (head : Position) (d : Direction) : Position :=
  match d with
  | Direction.UP => { head with y := head.y - 1 }
  | Direction.DOWN => { head with y := head.y + 1 }
  | Direction.LEFT => { head with x := head.x - 1 }
  | Direction.RIGHT => { head with x := head.x + 1 }

/-- The wall test of `checkCollisions`. -/
def onWall (p : Position) : Prop :=
  p.x ≤ 0 ∨ p.x ≥ GRID_WIDTH - 1 ∨ p.y ≤ 0 ∨ p.y ≥ GRID_HEIGHT - 1

instance (p : Position) : Decidable (onWall p) := by unfold onWall; infer_instance
instance (p : Position) : Decidable (Interior p) := by unfold Interior; infer_instance

/-- The record after `direction = nextDirection; moveSnake();` for a snake `head :: tail`. -/
def movedGame (g : SnakeGame) (head : Position) (tail : List Position) : SnakeGame :=
  { g with direction := g.nextDirection
           snake := movedHead head g.nextDirection :: (head :: tail).dropLast }

/-- What holds of every state a game can be in. -/
structure Inv (g : SnakeGame) : Prop where
  snake_ne : g.snake ≠ []
  food_in : Interior g.food
  food_off : g.food ∉ g.snake
  special_in : g.hasSpecialFood = true → Interior g.specialFood
  special_off : g.hasSpecialFood = true → g.specialFood ∉ g.snake
  dir_ok : g.nextDirection ≠ opposite g.direction
  speed_lo : 50 ≤ g.gameSpeed
  speed_hi : g.gameSpeed ≤ 200
  speed_mod : g.gameSpeed % 5 = 0

/-- The record after `direction = nextDirection; moveSnake(); checkCollisions();`. -/
def afterCollisions (g : SnakeGame) (head : Position) (tail : List Position) : SnakeGame :=
  if onWall (movedHead head g.nextDirection) ∨
      movedHead head g.nextDirection ∈ (head :: tail).dropLast
  then gameOver (movedGame g head tail) else movedGame g head tail

/-- The invariant between `moveSnake` and the end of `checkFood`: the head may sit on a
food item that has not been dealt with yet. -/
structure PreInv (g : SnakeGame) (head : Position) : Prop where
  snake_ne : g.snake ≠ []
  food_in : Interior g.food
  special_in : g.hasSpecialFood = true → Interior g.specialFood
  special_off : g.hasSpecialFood = true → g.specialFood ∈ g.snake → g.specialFood = head
  dir_ok : g.nextDirection ≠ opposite g.direction
  speed_lo : 50 ≤ g.gameSpeed
  speed_hi : g.gameSpeed ≤ 200
  speed_mod : g.gameSpeed % 5 = 0

/-- A burst of key presses, each dispatched by `handleInput`. -/
def pressKeys (g : SnakeGame) (keys : List Key) : Option SnakeGame :=
  run g (keys.map Event.keyPressed)

/-- The key presses stay within the current run: none of them is handled by the menu,
the only place where `initializeGame` starts a new run. -/
def sameRun : SnakeGame → List Key → Bool
  | _, [] => true
  | g, key :: keys =>
    decide (g.currentState ≠ GameState.MENU) &&
      match handleKey g key with
      | none => false
      | some g1 => sameRun g1 keys

/-- The terminal condition in the words of the specification: the head is at or beyond the
playable boundary, or equals a segment at an index of at least 1. -/
def Collides (snake : List Position) : Prop :=
  ∃ head, snake.head? = some head ∧
    (head.x ≤ 0 ∨ head.x ≥ 39 ∨ head.y ≤ 0 ∨ head.y ≥ 29 ∨
      ∃ i, 1 ≤ i ∧ snake[i]? = some head)

/-- Whether the event is a tick whose moved head is on the regular food. -/
def picksRegularFood (g : SnakeGame) : Event → Bool
  | Event.update elapsedMs _ =>
    decide (g.currentState = GameState.PLAYING) && decide (elapsedMs ≥ g.gameSpeed) &&
      match g.snake with
      | [] => false
      | head :: _ => (movedHead head g.nextDirection).eq g.food
  | _ => false

/-- Whether the event makes the menu call `initializeGame`. -/
def startsRun (g : SnakeGame) : Event → Bool
  | Event.keyPressed key =>
    decide (g.currentState = GameState.MENU) && decide (key = Key.Enter ∨ key = Key.Space)
  | _ => false

/-- The function `run`, counting the regular-food pickups since the last `initializeGame`. -/
def runCounting (g : SnakeGame) (k : Nat) : List Event → Option (SnakeGame × Nat)
  | [] => some (g, k)
  | e :: es =>
    match step g e with
    | none => none
    | some g1 =>
      runCounting g1 (if startsRun g e then 0 else if picksRegularFood g e then k + 1 else k) es

/-- The edges of the session state machine in the words of the specification. -/
def nextState : GameState → Key → GameState
  | GameState.MENU, Key.Enter => GameState.PLAYING
  | GameState.MENU, Key.Space => GameState.PLAYING
  | GameState.PLAYING, Key.Space => GameState.PAUSED
  | GameState.PAUSED, Key.Space => GameState.PLAYING
  | GameState.PAUSED, Key.R => GameState.PLAYING
  | GameState.PAUSED, Key.Q => GameState.MENU
  | GameState.PAUSED, Key.Escape => GameState.MENU
  | GameState.GAME_OVER, Key.Enter => GameState.MENU
  | GameState.GAME_OVER, Key.Space => GameState.MENU
  | s, _ => s

/-! ## Concrete runs -/

/-- Generator outputs of the run in which a respawned regular food lands on the special
food: every regular food appears in the cell in front of the head. -/
def overlapGen : List Sample :=
  [⟨20, 14⟩, ⟨20, 14⟩, ⟨21, 14⟩, ⟨22, 14⟩, ⟨23, 14⟩, ⟨24, 14⟩, ⟨25, 14⟩, ⟨26, 14⟩, ⟨27, 14⟩,
   ⟨28, 14⟩, ⟨29, 14⟩, ⟨30, 14⟩, ⟨31, 14⟩, ⟨31, 14⟩, ⟨5, 5⟩]

/-- Enter in the menu, then eleven ticks straight to the right.  Every call of `update`
reads 200 ms on the game clock; the special food of tick 10 is at most two ticks old, so
its timer has not reached 5 s. -/
def overlapEvents : List Event :=
  Event.keyPressed Key.Enter :: List.replicate 11 (Event.update 200 false)

/-- The state after `overlapEvents`. -/
def overlapState : SnakeGame :=
  { windowOpen := true
    currentState := GameState.PLAYING
    snake := [⟨31, 15⟩, ⟨30, 15⟩, ⟨29, 15⟩, ⟨28, 15⟩, ⟨27, 15⟩, ⟨26, 15⟩, ⟨25, 15⟩, ⟨24, 15⟩,
              ⟨23, 15⟩, ⟨22, 15⟩, ⟨21, 15⟩, ⟨20, 15⟩, ⟨19, 15⟩, ⟨19, 15⟩]
    direction := Direction.RIGHT
    nextDirection := Direction.RIGHT
    food := ⟨32, 15⟩
    specialFood := ⟨32, 15⟩
    hasSpecialFood := true
    score := 11
    highScore := 0
    gameSpeed := 145
    gen := [⟨5, 5⟩] }

/-- Generator outputs of a short run: food first in front of the head, then far away. -/
def turnGen : List Sample := [⟨20, 14⟩, ⟨20, 14⟩, ⟨4, 4⟩]

/-- The state after Enter in the menu, for `turnGen`. -/
def turnStart : SnakeGame :=
  { windowOpen := true
    currentState := GameState.PLAYING
    snake := [⟨20, 15⟩, ⟨19, 15⟩, ⟨18, 15⟩]
    direction := Direction.RIGHT
    nextDirection := Direction.RIGHT
    food := ⟨21, 15⟩
    specialFood := ⟨0, 0⟩
    hasSpecialFood := false
    score := 0
    highScore := 0
    gameSpeed := 200
    gen := [⟨4, 4⟩] }

/-- The state `turnStart` after one tick: the food in front of the head is eaten. -/
def turnAfterTick : SnakeGame :=
  { windowOpen := true
    currentState := GameState.PLAYING
    snake := [⟨21, 15⟩, ⟨20, 15⟩, ⟨19, 15⟩, ⟨19, 15⟩]
    direction := Direction.RIGHT
    nextDirection := Direction.RIGHT
    food := ⟨5, 5⟩
    specialFood := ⟨0, 0⟩
    hasSpecialFood := false
    score := 1
    highScore := 0
    gameSpeed := 195
    gen := [] }

/-- Enter, Up, then fourteen ticks: the head climbs from (20,15) to (20,1). -/
def wallEvents : List Event :=
  Event.keyPressed Key.Enter :: Event.keyPressed Key.Up ::
    List.replicate 14 (Event.update 200 false)

/-- The state after `wallEvents` with generator outputs `[⟨4, 4⟩, ⟨4, 4⟩]`: the next tick
drives the head into the top wall. -/
def wallState : SnakeGame :=
  { windowOpen := true
    currentState := GameState.PLAYING
    snake := [⟨20, 1⟩, ⟨20, 2⟩, ⟨20, 3⟩]
    direction := Direction.UP
    nextDirection := Direction.UP
    food := ⟨5, 5⟩
    specialFood := ⟨0, 0⟩
    hasSpecialFood := false
    score := 0
    highScore := 0
    gameSpeed := 200
    gen := [] }

end SnakeGame

/-! # The console variant (`main.cpp`)

The local variables of `main` form the state; one pass through the body of `while(game)`
is `iteration`.  Drawing calls are left out.  What the pass takes from outside is an
`Input`: the key states, the screen colour read by `getpixel`, and the values found when a
subscript of `snakeX` / `snakeY` is outside `0..199`.  The outputs `rand()` is still going
to return are part of the state; `main` never calls `srand`, and which sequence `rand()`
then produces is left to the C library, so the sequence is arbitrary here. -/

namespace Main

/-- The locals of `main`, lines 8-18 (`gd`, `gm` are only used by `initgraph`). -/
structure State where
  key_dir : Int
  foodX : Int
  foodY : Int
  snakeX : List Int
  snakeY : List Int
  delayTime : Int
  food : Int
  body : Int
  p_dir : Int
  length : Int
  game : Bool
  rand : List Nat
  deriving DecidableEq

/-- The outcomes of the eight `GetAsyncKeyState` calls of lines 91-100 (`true`: non-zero). -/
structure Keys where
  VK_RIGHT : Bool
  D : Bool
  VK_LEFT : Bool
  A : Bool
  VK_UP : Bool
  W : Bool
  VK_DOWN : Bool
  S : Bool

/-- What one pass of the loop reads from outside. -/
structure Input where
  keys : Keys
  getpixel : Int → Int → Int
  strayX : Int → Int
  strayY : Int → Int

/-- No key is held down. -/
def noKeys : Keys :=
  { VK_RIGHT := false, D := false, VK_LEFT := false, A := false,
    VK_UP := false, W := false, VK_DOWN := false, S := false }

/-- The read `a[i]` of an `int a[200]`: inside the array the stored value, outside it
whatever lies there. -/
def readArray (a : List Int) (stray : Int → Int) (i : Int) : Int :=
  if 0 ≤ i ∧ i < 200 then a.getD i.toNat 0 else stray i

/-- Lines 13-29.  The arrays start with whatever the stack holds (`garbageX`, `garbageY`),
`snakeX[0]` and `snakeY[0]` are set to 200, and `key_dir = rand() % 2` takes the first
output of `rand()`.  The stores `snakeX[200] = {0}` and `snakeY[200] = {0}` of lines 22-23
go to the element after the last one and leave the 200 elements alone. -/
def initial (garbageX garbageY : List Int) (rand : List Nat) : Option State :=
  match rand with
  | [] => none
  | r :: rest =>
    some
      { key_dir := ((r % 2 : Nat) : Int)
        foodX := 200
        foodY := 200
        snakeX := garbageX.set 0 200
        snakeY := garbageY.set 0 200
        delayTime := 200
        food := 0
        body := 500
        p_dir := 1
        length := 1
        game := true
        rand := rest }

/-- The `do ... while` of lines 60-63: two outputs of `rand()` per pass. -/
def placeFoodLoop (getpixel : Int → Int → Int) : List Nat → Option (Int × Int × List Nat)
  | r1 :: r2 :: rest =>
    let foodX : Int := 10 + ((r1 % 610 : Nat) : Int)
    let foodY : Int := 10 + ((r2 % 450 : Nat) : Int)
    if getpixel foodX foodY ≠ 0 ∧ foodX > 10 ∧ foodY > 10 then placeFoodLoop getpixel rest
    else some (foodX, foodY, rest)
  | _ => none

/-- Lines 67-81: rounding to the grid and the two edge corrections. -/
def snapFood (foodX foodY : Int) (rand : List Nat) : Option (Int × Int × List Nat) :=
  let foodX := foodX / 10
  let foodX := foodX * 10
  let foodY := foodY / 10
  let foodY := foodY * 10
  if foodX = 10 then
    match rand with
    | [] => none
    | r :: rest => some ((((r % 10 : Nat) : Int) + 5) * 10, foodY, rest)
  else if foodY = 10 then
    match rand with
    | [] => none
    | r :: rest => some (foodX, (((r % 10 : Nat) : Int) + 5) * 10, rest)
  else some (foodX, foodY, rand)

/-- Lines 52-83: the food collision. -/
def eatFood (s : State) (inp : Input) : Option State :=
  if readArray s.snakeX inp.strayX 0 = s.foodX ∧ readArray s.snakeY inp.strayY 0 = s.foodY then
    match placeFoodLoop inp.getpixel s.rand with
    | none => none
    | some (foodX, foodY, rest) =>
      match snapFood foodX foodY rest with
      | none => none
      | some (foodX, foodY, rest) =>
        some { s with length := s.length + 1, food := s.food + 1, delayTime := s.delayTime - 5,
                      foodX := foodX, foodY := foodY, rand := rest }
  else some s

/-- Lines 91-105. -/
def readKeys (k : Keys) : Int :=
  if k.VK_RIGHT || k.D then 1
  else if k.VK_LEFT || k.A then 2
  else if k.VK_UP || k.W then 3
  else if k.VK_DOWN || k.S then 4
  else 0

/-- The store `a[0] = v`. -/
def setHead (a : List Int) (v : Int) : List Int := a.set 0 v

/-- Lines 109-146: the `switch (key_dir)`. -/
def moveHead (s : State) (inp : Input) : State :=
  let x0 := readArray s.snakeX inp.strayX 0
  let y0 := readArray s.snakeY inp.strayY 0
  if s.key_dir = 0 then
    if s.p_dir = 1 then { s with snakeX := setHead s.snakeX (x0 + 10) }
    else if s.p_dir = 2 then { s with snakeX := setHead s.snakeX (x0 - 10) }
    else if s.p_dir = 3 then { s with snakeY := setHead s.snakeY (y0 - 10) }
    else if s.p_dir = 4 then { s with snakeY := setHead s.snakeY (y0 + 10) }
    else { s with key_dir := 0 }
  else if s.key_dir = 1 then { s with snakeX := setHead s.snakeX (x0 + 10), p_dir := 1 }
  else if s.key_dir = 2 then { s with snakeX := setHead s.snakeX (x0 - 10), p_dir := 2 }
  else if s.key_dir = 3 then { s with snakeY := setHead s.snakeY (y0 - 10), p_dir := 3 }
  else if s.key_dir = 4 then { s with snakeY := setHead s.snakeY (y0 + 10), p_dir := 4 }
  else s

/-- Lines 165-169 on one array: `a[i] = a[i - 1]` for `i = 199` down to `1`.  Every store
reads an element that has not been written yet, so the new `a[i]` is the old `a[i - 1]`
and `a[0]` stays. -/
def shiftArray (a : List Int) : List Int :=
  match a with
  | [] => []
  | x :: _ => x :: a.dropLast

/-- Lines 173-180: the first `i` in `i, i + 1, ...` (at most `n` of them) whose segment
equals the head. -/
def scanBody (s : State) (inp : Input) (i : Int) : Nat → Option Int
  | 0 => none
  | n + 1 =>
    if readArray s.snakeX inp.strayX 0 = readArray s.snakeX inp.strayX i ∧
        readArray s.snakeY inp.strayY 0 = readArray s.snakeY inp.strayY i then some i
    else scanBody s inp (i + 1) n

/-- Lines 165-180: the shift of both arrays, then the scan `for (i = 2; i < length; i++)`. -/
def shiftAndScan (s : State) (inp : Input) : State :=
  let s1 := { s with snakeX := shiftArray s.snakeX, snakeY := shiftArray s.snakeY }
  match scanBody s1 inp 2 (s1.length - 2).toNat with
  | none => s1
  | some i => { s1 with body := i }

/-- Lines 186-193: the two end-of-pass tests. -/
def endChecks (s : State) (inp : Input) : State :=
  let x0 := readArray s.snakeX inp.strayX 0
  let y0 := readArray s.snakeY inp.strayY 0
  let s1 := if x0 ≥ 615 ∨ x0 ≤ 5 ∨ y0 ≤ 5 ∨ y0 ≥ 455 then { s with game := false } else s
  if x0 = readArray s1.snakeX inp.strayX s1.body ∧ y0 = readArray s1.snakeY inp.strayY s1.body
  then { s1 with game := false } else s1

/-- The state in which `delay(delayTime)` of line 182 is called and the pass ends: the
body of `while(game)`, lines 36-193. -/
def iteration (s : State) (inp : Input) : Option State :=
  match eatFood s inp with
  | none => none
  | some s1 =>
    some (endChecks (shiftAndScan (moveHead { s1 with key_dir := readKeys inp.keys } inp) inp)
      inp)

/-- The loop `while(game)` over the inputs of successive passes. -/
def loop (s : State) : List Input → Option State
  | [] => some s
  | inp :: rest =>
    if s.game then
      match iteration s inp with
      | none => none
      | some s1 => loop s1 rest
    else some s

/-! ## Vocabulary of the statements -/

/-- The horizontal step of a committed direction: 1 is right, 2 is left. -/
def stepX (dir : Int) : Int :=
  if dir = 1 then 10 else if dir = 2 then -10 else 0

/-- The vertical step of a committed direction: 3 is up, 4 is down. -/
def stepY (dir : Int) : Int :=
  if dir = 3 then -10 else if dir = 4 then 10 else 0

/-- The head sits on the food: the test of line 52. -/
def onFood (s : State) (inp : Input) : Prop :=
  readArray s.snakeX inp.strayX 0 = s.foodX ∧ readArray s.snakeY inp.strayY 0 = s.foodY

/-- A subscript that lies inside an `int a[200]`. -/
def inBounds (i : Int) : Prop := 0 ≤ i ∧ i < 200

instance (i : Int) : Decidable (inBounds i) := by unfold inBounds; infer_instance

/-- The subscripts of the display loop, lines 150-161: `i = 0, ..., length - 1`. -/
def displaySubscripts (s : State) : List Int :=
  (List.range s.length.toNat).map (fun i => (i : Int))

/-- The subscripts of the shift loop, lines 165-169: the store to `i` and the read of
`i - 1`, for `i = 199` down to `1`. -/
def shiftSubscripts : List Int :=
  ((List.range 199).reverse.map (fun i => [((i + 1 : Nat) : Int), (i : Int)])).flatten

/-- The subscripts of the scan of lines 173-180, in step with `scanBody`: `0` and `i` for
every `i` that is tested. -/
def scanSubscripts (s : State) (inp : Input) (i : Int) : Nat → List Int
  | 0 => []
  | n + 1 =>
    if readArray s.snakeX inp.strayX 0 = readArray s.snakeX inp.strayX i ∧
        readArray s.snakeY inp.strayY 0 = readArray s.snakeY inp.strayY i then [0, i]
    else 0 :: i :: scanSubscripts s inp (i + 1) n

/-- The value of `body` when the test of line 190 subscripts `snakeX[body]` and
`snakeY[body]`: the one the scan has left behind. -/
def bodySubscript (s : State) (inp : Input) : Option Int :=
  match eatFood s inp with
  | none => none
  | some s1 =>
    some (shiftAndScan (moveHead { s1 with key_dir := readKeys inp.keys } inp) inp).body

/-- The subscripts one pass applies to `snakeX` and `snakeY`, in program order: `0` in the
test of line 52, `0` in the `switch`, the display loop, the shift loop, the scan, and in
the end tests of lines 186-190 `0` and `body`. -/
def subscripts (s : State) (inp : Input) : Option (List Int) :=
  match eatFood s inp with
  | none => none
  | some s1 =>
    let s2 := moveHead { s1 with key_dir := readKeys inp.keys } inp
    let s3 : State := { s2 with snakeX := shiftArray s2.snakeX, snakeY := shiftArray s2.snakeY }
    some ([0, 0] ++ displaySubscripts s2 ++ shiftSubscripts
      ++ scanSubscripts s3 inp 2 (s3.length - 2).toNat
      ++ [0, (shiftAndScan s2 inp).body])

/-! ## Concrete runs -/

/-- An input with the given keys: a white screen, and -1 next to the arrays. -/
def inputWith (k : Keys) : Input :=
  { keys := k, getpixel := fun _ _ => 15, strayX := fun _ => -1, strayY := fun _ => -1 }

def leftKey : Keys := { noKeys with VK_LEFT := true }
def rightKey : Keys := { noKeys with VK_RIGHT := true }
def downKey : Keys := { noKeys with VK_DOWN := true }

/-- The arrays as they might be found on the stack. -/
def zeros : List Int := List.replicate 200 0

/-- The three outputs of `rand()` that put the next food at `(x, y)`, for `x` in
`50, 60, ..., 140`: the loop of line 60 draws `foodX = 10` and `foodY = y`, and line 74
replaces `foodX`. -/
def foodAt (x y : Nat) : List Nat := [0, y - 10, x / 10 - 5]

/-- Outputs of `rand()` for a row of nine foods eaten from right to left. -/
def rowLeft (y : Nat) : List Nat :=
  ([130, 120, 110, 100, 90, 80, 70, 60, 50].map (fun x => foodAt x y)).flatten

/-- Outputs of `rand()` for a row of nine foods eaten from left to right. -/
def rowRight (y : Nat) : List Nat :=
  ([60, 70, 80, 90, 100, 110, 120, 130, 140].map (fun x => foodAt x y)).flatten

/-- Outputs of `rand()` of a game in which every food appears in front of the head. -/
def feastRand : List Nat :=
  [0] ++ foodAt 140 200 ++ rowLeft 200 ++ foodAt 50 210 ++ rowRight 210 ++ foodAt 140 220
    ++ rowLeft 220 ++ foodAt 50 230 ++ rowRight 230 ++ foodAt 140 240

/-- The 46 passes of that game: left to x = 140, then four rows of ten foods each, eaten
in a zigzag between x = 140 and x = 50 on the lines y = 200, 210, 220, 230. -/
def feastInputs : List Input :=
  [inputWith leftKey] ++ List.replicate 14 (inputWith noKeys) ++ [inputWith downKey]
    ++ List.replicate 9 (inputWith rightKey) ++ [inputWith downKey]
    ++ List.replicate 9 (inputWith leftKey) ++ [inputWith downKey]
    ++ List.replicate 9 (inputWith rightKey) ++ [inputWith downKey]

/-- The state `initial` returns for all-zero stack contents, with the outputs of `rand()`
that put the first respawned food at (140, 200). -/
def startState : State :=
  { key_dir := 0
    foodX := 200
    foodY := 200
    snakeX := zeros.set 0 200
    snakeY := zeros.set 0 200
    delayTime := 200
    food := 0
    body := 500
    p_dir := 1
    length := 1
    game := true
    rand := foodAt 140 200 }

end Main

namespace SnakeGame

/-! ## Basic facts -/

theorem Position.eq_iff (a b : Position) : a.eq b = true ↔ a = b := by
  cases a; cases b; simp [Position.eq]

theorem isSnakePosition_iff (snake : List Position) (pos : Position) :
    isSnakePosition snake pos = true ↔ pos ∈ snake := by
  induction snake with
  | nil => simp [isSnakePosition]
  | cons s rest ih =>
    unfold isSnakePosition
    by_cases h : s.eq pos = true
    · have e := (Position.eq_iff s pos).1 h
      subst e
      simp [h]
    · have hne : ¬ s = pos := fun e => h ((Position.eq_iff s pos).2 e)
      have hne2 : ¬ pos = s := fun e => hne e.symm
      simp [h, ih, hne2]

theorem hitsBody_iff (head : Position) (body : List Position) :
    hitsBody head body = true ↔ head ∈ body := by
  induction body with
  | nil => simp [hitsBody]
  | cons s rest ih =>
    unfold hitsBody
    by_cases h : s.eq head = true
    · have e := (Position.eq_iff s head).1 h
      subst e
      simp [h]
    · have hne : ¬ s = head := fun e => h ((Position.eq_iff s head).2 e)
      have hne2 : ¬ head = s := fun e => hne e.symm
      simp [h, ih, hne2]

theorem sample_interior (r : Sample) : Interior ⟨xDist r, yDist r⟩ := by
  have h1 := r.i.isLt
  have h2 := r.j.isLt
  simp only [Interior, xDist, yDist, GRID_WIDTH, GRID_HEIGHT, WINDOW_WIDTH, WINDOW_HEIGHT,
    CELL_SIZE]
  norm_num
  omega

theorem generateFoodLoop_spec (snake : List Position) (gen rest : List Sample) (p : Position)
    (h : generateFoodLoop snake gen = some (p, rest)) :
    p ∉ snake ∧ Interior p ∧ rest.length < gen.length := by
  induction gen with
  | nil => simp [generateFoodLoop] at h
  | cons r more ih =>
    simp only [generateFoodLoop] at h
    split at h
    · obtain ⟨a, b, c⟩ := ih h
      exact ⟨a, b, by simp; omega⟩
    · rename_i hfree
      simp only [Option.some.injEq, Prod.mk.injEq] at h
      obtain ⟨rfl, rfl⟩ := h
      refine ⟨?_, sample_interior r, by simp⟩
      intro hm
      exact hfree ((isSnakePosition_iff _ _).2 hm)

theorem generateSpecialFoodLoop_spec (snake : List Position) (food : Position)
    (gen rest : List Sample) (p : Position)
    (h : generateSpecialFoodLoop snake food gen = some (p, rest)) :
    p ∉ snake ∧ p ≠ food ∧ Interior p ∧ rest.length < gen.length := by
  induction gen with
  | nil => simp [generateSpecialFoodLoop] at h
  | cons r more ih =>
    simp only [generateSpecialFoodLoop] at h
    split at h
    · obtain ⟨a, b, c, d⟩ := ih h
      exact ⟨a, b, c, by simp; omega⟩
    · rename_i hfree
      simp only [Option.some.injEq, Prod.mk.injEq] at h
      obtain ⟨rfl, rfl⟩ := h
      simp only [Bool.or_eq_true, not_or] at hfree
      refine ⟨?_, ?_, sample_interior r, by simp⟩
      · intro hm
        exact hfree.1 ((isSnakePosition_iff _ _).2 hm)
      · intro he
        exact hfree.2 ((Position.eq_iff _ _).2 he)

/-- The rejection loop returns as soon as the generator offers one free cell. -/
theorem generateFoodLoop_isSome (snake : List Position) (gen : List Sample)
    (h : ∃ r ∈ gen, (⟨xDist r, yDist r⟩ : Position) ∉ snake) :
    (generateFoodLoop snake gen).isSome = true := by
  induction gen with
  | nil => simp at h
  | cons r more ih =>
    simp only [generateFoodLoop]
    split
    · rename_i hocc
      apply ih
      obtain ⟨q, hq, hfree⟩ := h
      rcases List.mem_cons.1 hq with rfl | hq
      · exact absurd ((isSnakePosition_iff _ _).1 hocc) hfree
      · exact ⟨q, hq, hfree⟩
    · rfl

/-! ## The member functions, case by case -/

theorem growSnake_eq (g g1 : SnakeGame) (h : growSnake g = some g1) :
    ∃ b, b ∈ g.snake ∧ g.snake.getLast? = some b ∧ g1 = { g with snake := g.snake ++ [b] } := by
  unfold growSnake at h
  split at h
  · simp at h
  · rename_i back hb
    simp only [Option.some.injEq] at h
    exact ⟨back, List.mem_of_getLast?_eq_some hb, hb, h.symm⟩

theorem checkSpecialFood_cases (g g1 : SnakeGame) (head : Position)
    (h : checkSpecialFood g head = some g1) :
    (¬ (g.hasSpecialFood = true ∧ head = g.specialFood) ∧ g1 = g) ∨
    (g.hasSpecialFood = true ∧ head = g.specialFood ∧ ∃ b, b ∈ g.snake ∧
      g1 = { g with score := g.score + 5, snake := g.snake ++ [b] ++ [b],
                    hasSpecialFood := false }) := by
  unfold checkSpecialFood at h
  split at h
  · rename_i hc
    simp only [Bool.and_eq_true, Position.eq_iff] at hc
    right
    refine ⟨hc.1, hc.2, ?_⟩
    simp only [Option.bind_eq_bind, Option.bind_eq_some] at h
    obtain ⟨a, ha, c, hc2, hfin⟩ := h
    obtain ⟨b, hb, hlast, rfl⟩ := growSnake_eq _ _ ha
    obtain ⟨b2, hb2, hlast2, rfl⟩ := growSnake_eq _ _ hc2
    simp only [List.getLast?_concat, Option.some.injEq] at hlast2
    subst hlast2
    simp only [Option.some.injEq] at hfin
    exact ⟨b, hb, hfin.symm⟩
  · rename_i hc
    simp only [Bool.and_eq_true, Position.eq_iff] at hc
    left
    simp only [Option.some.injEq] at h
    exact ⟨hc, h.symm⟩

theorem checkRegularFood_cases (g g1 : SnakeGame) (head : Position)
    (h : checkRegularFood g head = some g1) :
    (head ≠ g.food ∧ g1 = g) ∨
    (head = g.food ∧ ∃ b f rest, b ∈ g.snake ∧
      generateFoodLoop (g.snake ++ [b]) g.gen = some (f, rest) ∧
      (((g.score + 1) % 10 ≠ 0 ∧
        g1 = { g with score := g.score + 1, snake := g.snake ++ [b], food := f, gen := rest,
                      gameSpeed := if g.gameSpeed > 50 then g.gameSpeed - 5 else g.gameSpeed }) ∨
       ((g.score + 1) % 10 = 0 ∧ ∃ sp rest1,
        generateSpecialFoodLoop (g.snake ++ [b]) f rest = some (sp, rest1) ∧
        g1 = { g with score := g.score + 1, snake := g.snake ++ [b], food := f, gen := rest1,
                      gameSpeed := if g.gameSpeed > 50 then g.gameSpeed - 5 else g.gameSpeed,
                      specialFood := sp, hasSpecialFood := true }))) := by
  obtain ⟨wo, cs, sn, dir, nd, fd, sf, hsf, sc, hs, gs, gn⟩ := g
  unfold checkRegularFood at h
  dsimp only at h ⊢
  split at h
  · rename_i hc
    simp only [Position.eq_iff] at hc
    right
    refine ⟨hc, ?_⟩
    simp only [Option.bind_eq_bind, Option.bind_eq_some] at h
    obtain ⟨a, ha, c, hc2, hfin⟩ := h
    obtain ⟨b, hb, -, rfl⟩ := growSnake_eq _ _ ha
    dsimp only at hb hc2 hfin
    unfold generateFood at hc2
    dsimp only at hc2
    split at hc2
    · simp at hc2
    · rename_i f rest hgen
      simp only [Option.some.injEq] at hc2
      subst hc2
      dsimp only at hfin
      refine ⟨b, f, rest, hb, hgen, ?_⟩
      by_cases hsc : (sc + 1) % 10 = 0
      · right
        refine ⟨hsc, ?_⟩
        by_cases hsp : gs > 50
        · simp only [hsp, if_true, hsc] at hfin
          unfold generateSpecialFood at hfin
          dsimp only at hfin
          split at hfin
          · simp at hfin
          · rename_i sp rest1 hgen1
            simp only [Option.some.injEq] at hfin
            exact ⟨sp, rest1, hgen1, by rw [if_pos hsp]; exact hfin.symm⟩
        · simp only [hsp, if_false, hsc, if_true] at hfin
          unfold generateSpecialFood at hfin
          dsimp only at hfin
          split at hfin
          · simp at hfin
          · rename_i sp rest1 hgen1
            simp only [Option.some.injEq] at hfin
            exact ⟨sp, rest1, hgen1, by rw [if_neg hsp]; exact hfin.symm⟩
      · left
        refine ⟨hsc, ?_⟩
        by_cases hsp : gs > 50
        · simp only [hsp, if_true, hsc, if_false, Option.some.injEq] at hfin
          rw [if_pos hsp]; exact hfin.symm
        · simp only [hsp, if_false, hsc, Option.some.injEq] at hfin
          rw [if_neg hsp]; exact hfin.symm
  · rename_i hc
    simp only [Position.eq_iff] at hc
    left
    simp only [Option.some.injEq] at h
    exact ⟨hc, h.symm⟩

theorem moveSnake_eq (g : SnakeGame) (head : Position) (tail : List Position)
    (hs : g.snake = head :: tail) :
    moveSnake { g with direction := g.nextDirection } = some (movedGame g head tail) := by
  obtain ⟨wo, cs, sn, dir, nd, fd, sf, hsf, sc, hsc, gs, gn⟩ := g
  dsimp only at hs
  subst hs
  unfold moveSnake movedGame movedHead
  cases nd <;> simp

theorem checkCollisions_eq (g : SnakeGame) (head : Position) (body : List Position)
    (hs : g.snake = head :: body) :
    checkCollisions g = some (if onWall head ∨ head ∈ body then gameOver g else g) := by
  unfold checkCollisions
  rw [hs]
  dsimp only
  by_cases hw : onWall head
  · have hw2 := hw
    unfold onWall at hw2
    rw [if_pos hw2, if_pos (Or.inl hw)]
  · have hw2 := hw
    unfold onWall at hw2
    rw [if_neg hw2]
    by_cases hb : head ∈ body
    · rw [if_pos ((hitsBody_iff head body).2 hb), if_pos (Or.inr hb)]
    · have hnb : ¬ hitsBody head body = true := fun hh => hb ((hitsBody_iff head body).1 hh)
      rw [if_neg hnb, if_neg (fun hc => hc.elim hw hb)]

theorem tick_some (g g5 : SnakeGame) (expired : Bool) (h : tick g expired = some g5) :
    ∃ head tail g3 g4, g.snake = head :: tail ∧
      checkRegularFood (afterCollisions g head tail) (movedHead head g.nextDirection) = some g3 ∧
      checkSpecialFood g3 (movedHead head g.nextDirection) = some g4 ∧
      g5 = updateSpecialFood g4 expired := by
  unfold afterCollisions
  cases hs : g.snake with
  | nil =>
    unfold tick moveSnake at h
    simp [hs] at h
  | cons head tail =>
    unfold tick at h
    rw [moveSnake_eq g head tail hs] at h
    simp only [Option.bind_eq_bind, Option.some_bind] at h
    rw [checkCollisions_eq (movedGame g head tail) (movedHead head g.nextDirection)
      ((head :: tail).dropLast) rfl] at h
    simp only [Option.some_bind, Option.bind_eq_some] at h
    obtain ⟨g4, hg4, hfin⟩ := h
    unfold checkFood at hg4
    have hsn : (if onWall (movedHead head g.nextDirection) ∨
            movedHead head g.nextDirection ∈ (head :: tail).dropLast
         then gameOver (movedGame g head tail) else movedGame g head tail).snake
         = movedHead head g.nextDirection :: (head :: tail).dropLast := by
      split
      · simp only [gameOver, movedGame]
        split <;> rfl
      · rfl
    rw [hsn] at hg4
    simp only [Option.bind_eq_bind, Option.bind_eq_some] at hg4
    obtain ⟨g3, hg3, hg4⟩ := hg4
    simp only [Option.some.injEq] at hfin
    exact ⟨head, tail, g3, g4, rfl, hg3, hg4, hfin.symm⟩

/-! ## The invariant -/

theorem initializeGame_eq (g g1 : SnakeGame) (h : initializeGame g = some g1) :
    ∃ f rest, generateFoodLoop [⟨20, 15⟩, ⟨19, 15⟩, ⟨18, 15⟩] g.gen = some (f, rest) ∧
      g1 = { g with snake := [⟨20, 15⟩, ⟨19, 15⟩, ⟨18, 15⟩], direction := Direction.RIGHT,
                    nextDirection := Direction.RIGHT, score := 0, gameSpeed := 200,
                    hasSpecialFood := false, food := f, gen := rest } := by
  unfold initializeGame generateFood at h
  have e1 : GRID_WIDTH / 2 = 20 := by decide
  have e2 : GRID_HEIGHT / 2 = 15 := by decide
  simp only [e1, e2] at h
  norm_num at h
  split at h
  · simp at h
  · rename_i f rest hgen
    simp only [Option.some.injEq] at h
    exact ⟨f, rest, hgen, h.symm⟩

theorem inv_initializeGame (g g1 : SnakeGame) (h : initializeGame g = some g1) : Inv g1 := by
  obtain ⟨f, rest, hgen, rfl⟩ := initializeGame_eq g g1 h
  obtain ⟨hoff, hin, -⟩ := generateFoodLoop_spec _ _ _ _ hgen
  exact
    { snake_ne := by simp
      food_in := hin
      food_off := hoff
      special_in := by simp
      special_off := by simp
      dir_ok := by simp [opposite]
      speed_lo := by simp
      speed_hi := by simp
      speed_mod := by simp }

theorem inv_handlePlayingInput (g : SnakeGame) (key : Key) (hi : Inv g) :
    Inv (handlePlayingInput g key) := by
  obtain ⟨h1, h2, h3, h4, h5, h6, h7, h8, h9⟩ := hi
  unfold handlePlayingInput
  split
  · exact ⟨h1, h2, h3, h4, h5, h6, h7, h8, h9⟩
  · split
    all_goals (try split)
    all_goals
      first
      | exact ⟨h1, h2, h3, h4, h5, h6, h7, h8, h9⟩
      | (refine ⟨h1, h2, h3, h4, h5, ?_, h7, h8, h9⟩
         rename_i hd
         revert hd
         cases g.direction <;> simp [opposite])

theorem inv_handleKey (g g1 : SnakeGame) (key : Key) (hi : Inv g)
    (h : handleKey g key = some g1) : Inv g1 := by
  unfold handleKey at h
  split at h
  · unfold handleMenuInput at h
    split at h
    · exact inv_initializeGame _ _ h
    · split at h <;>
      · simp only [Option.some.injEq] at h
        subst h
        obtain ⟨h1, h2, h3, h4, h5, h6, h7, h8, h9⟩ := hi
        exact ⟨h1, h2, h3, h4, h5, h6, h7, h8, h9⟩
  · simp only [Option.some.injEq] at h
    subst h
    exact inv_handlePlayingInput g key hi
  · simp only [Option.some.injEq] at h
    subst h
    obtain ⟨h1, h2, h3, h4, h5, h6, h7, h8, h9⟩ := hi
    unfold handlePausedInput
    split
    · exact ⟨h1, h2, h3, h4, h5, h6, h7, h8, h9⟩
    · split <;> exact ⟨h1, h2, h3, h4, h5, h6, h7, h8, h9⟩
  · simp only [Option.some.injEq] at h
    subst h
    obtain ⟨h1, h2, h3, h4, h5, h6, h7, h8, h9⟩ := hi
    unfold handleGameOverInput
    split <;> exact ⟨h1, h2, h3, h4, h5, h6, h7, h8, h9⟩

theorem gameOver_fields (g : SnakeGame) :
    (gameOver g).snake = g.snake ∧ (gameOver g).food = g.food ∧
    (gameOver g).specialFood = g.specialFood ∧ (gameOver g).hasSpecialFood = g.hasSpecialFood ∧
    (gameOver g).direction = g.direction ∧ (gameOver g).nextDirection = g.nextDirection ∧
    (gameOver g).gameSpeed = g.gameSpeed ∧ (gameOver g).score = g.score ∧
    (gameOver g).gen = g.gen ∧ (gameOver g).windowOpen = g.windowOpen ∧
    (gameOver g).currentState = GameState.GAME_OVER ∧
    (gameOver g).highScore = max g.highScore g.score := by
  unfold gameOver
  by_cases h : g.score > g.highScore
  · simp only [h, if_true, true_and]
    rw [max_eq_right (le_of_lt h)]
  · simp only [h, if_false, true_and]
    rw [max_eq_left (not_lt.1 h)]

theorem afterCollisions_fields (g : SnakeGame) (head : Position) (tail : List Position) :
    (afterCollisions g head tail).snake
        = movedHead head g.nextDirection :: (head :: tail).dropLast ∧
    (afterCollisions g head tail).food = g.food ∧
    (afterCollisions g head tail).specialFood = g.specialFood ∧
    (afterCollisions g head tail).hasSpecialFood = g.hasSpecialFood ∧
    (afterCollisions g head tail).direction = g.nextDirection ∧
    (afterCollisions g head tail).nextDirection = g.nextDirection ∧
    (afterCollisions g head tail).gameSpeed = g.gameSpeed ∧
    (afterCollisions g head tail).score = g.score ∧
    (afterCollisions g head tail).gen = g.gen ∧
    (afterCollisions g head tail).windowOpen = g.windowOpen := by
  unfold afterCollisions
  split
  · obtain ⟨a1, a2, a3, a4, a5, a6, a7, a8, a9, a10, -, -⟩ := gameOver_fields (movedGame g head tail)
    rw [a1, a2, a3, a4, a5, a6, a7, a8, a9, a10]
    simp [movedGame]
  · simp [movedGame]

theorem preInv_checkRegularFood (g g3 : SnakeGame) (head : Position) (hp : PreInv g head)
    (hf : g.food ∈ g.snake → g.food = head) (h : checkRegularFood g head = some g3) :
    PreInv g3 head ∧ g3.food ∉ g3.snake := by
  obtain ⟨h1, h2, h4, h5, h6, h7, h8, h9⟩ := hp
  have hspeed : 50 ≤ (if g.gameSpeed > 50 then g.gameSpeed - 5 else g.gameSpeed) ∧
      (if g.gameSpeed > 50 then g.gameSpeed - 5 else g.gameSpeed) ≤ 200 ∧
      (if g.gameSpeed > 50 then g.gameSpeed - 5 else g.gameSpeed) % 5 = 0 := by
    split <;> omega
  rcases checkRegularFood_cases g g3 head h with
    ⟨hne, rfl⟩ | ⟨heq, b, f, rest, hb, hgen, ⟨hsc, rfl⟩ | ⟨hsc, sp, rest1, hgen1, rfl⟩⟩
  · exact ⟨⟨h1, h2, h4, h5, h6, h7, h8, h9⟩, fun hm => hne (hf hm).symm⟩
  · obtain ⟨foff, fin, -⟩ := generateFoodLoop_spec _ _ _ _ hgen
    refine ⟨⟨by simp, fin, h4, ?_, h6, hspeed.1, hspeed.2.1, hspeed.2.2⟩, foff⟩
    intro hhas hm
    simp only [List.mem_append, List.mem_singleton] at hm
    rcases hm with hm | hm
    · exact h5 hhas hm
    · exact h5 hhas (hm ▸ hb)
  · obtain ⟨foff, fin, -⟩ := generateFoodLoop_spec _ _ _ _ hgen
    obtain ⟨soff, -, sin, -⟩ := generateSpecialFoodLoop_spec _ _ _ _ _ hgen1
    refine ⟨⟨by simp, fin, fun _ => sin, ?_, h6, hspeed.1, hspeed.2.1, hspeed.2.2⟩, foff⟩
    intro _ hm
    exact absurd hm soff

theorem inv_checkSpecialFood (g g4 : SnakeGame) (head : Position) (hp : PreInv g head)
    (hf : g.food ∉ g.snake) (h : checkSpecialFood g head = some g4) : Inv g4 := by
  obtain ⟨h1, h2, h4, h5, h6, h7, h8, h9⟩ := hp
  rcases checkSpecialFood_cases g g4 head h with ⟨hns, rfl⟩ | ⟨hhas, hsp, b, hb, rfl⟩
  · refine ⟨h1, h2, hf, h4, ?_, h6, h7, h8, h9⟩
    intro hhas hm
    exact hns ⟨hhas, (h5 hhas hm).symm⟩
  · refine ⟨by simp, h2, ?_, by simp, by simp, h6, h7, h8, h9⟩
    intro hm
    simp only [List.mem_append, List.mem_singleton] at hm
    rcases hm with (hm | hm) | hm
    · exact hf hm
    · exact hf (hm ▸ hb)
    · exact hf (hm ▸ hb)

theorem inv_updateSpecialFood (g : SnakeGame) (expired : Bool) (hi : Inv g) :
    Inv (updateSpecialFood g expired) := by
  obtain ⟨h1, h2, h3, h4, h5, h6, h7, h8, h9⟩ := hi
  unfold updateSpecialFood
  split
  · exact ⟨h1, h2, h3, by simp, by simp, h6, h7, h8, h9⟩
  · exact ⟨h1, h2, h3, h4, h5, h6, h7, h8, h9⟩

theorem preInv_afterCollisions (g : SnakeGame) (head : Position) (tail : List Position)
    (hi : Inv g) (hs : g.snake = head :: tail) :
    PreInv (afterCollisions g head tail) (movedHead head g.nextDirection) ∧
    ((afterCollisions g head tail).food ∈ (afterCollisions g head tail).snake →
      (afterCollisions g head tail).food = movedHead head g.nextDirection) := by
  obtain ⟨h1, h2, h3, h4, h5, h6, h7, h8, h9⟩ := hi
  obtain ⟨a1, a2, a3, a4, a5, a6, a7, a8, a9, a10⟩ := afterCollisions_fields g head tail
  have hsub : ∀ q, q ∈ (head :: tail).dropLast → q ∈ g.snake := by
    intro q hq
    rw [hs]
    exact List.mem_of_mem_dropLast hq
  refine ⟨⟨?_, ?_, ?_, ?_, ?_, ?_, ?_, ?_⟩, ?_⟩
  · rw [a1]; simp
  · rw [a2]; exact h2
  · rw [a3, a4]; exact h4
  · rw [a1, a3, a4]
    intro hhas hm
    rcases List.mem_cons.1 hm with hm | hm
    · exact hm
    · exact absurd (hsub _ hm) (h5 hhas)
  · rw [a5, a6]
    cases g.nextDirection <;> simp [opposite]
  · rw [a7]; exact h7
  · rw [a7]; exact h8
  · rw [a7]; exact h9
  · rw [a1, a2]
    intro hm
    rcases List.mem_cons.1 hm with hm | hm
    · exact hm
    · exact absurd (hsub _ hm) h3

theorem inv_tick (g g5 : SnakeGame) (expired : Bool) (hi : Inv g)
    (h : tick g expired = some g5) : Inv g5 := by
  obtain ⟨head, tail, g3, g4, hs, hg3, hg4, rfl⟩ := tick_some g g5 expired h
  obtain ⟨hp, hf⟩ := preInv_afterCollisions g head tail hi hs
  obtain ⟨hp3, hf3⟩ := preInv_checkRegularFood _ _ _ hp hf hg3
  exact inv_updateSpecialFood _ _ (inv_checkSpecialFood _ _ _ hp3 hf3 hg4)

theorem inv_step (g g1 : SnakeGame) (e : Event) (hi : Inv g) (h : step g e = some g1) :
    Inv g1 := by
  cases e with
  | closed =>
    simp only [step, Option.some.injEq] at h
    subst h
    obtain ⟨h1, h2, h3, h4, h5, h6, h7, h8, h9⟩ := hi
    exact ⟨h1, h2, h3, h4, h5, h6, h7, h8, h9⟩
  | keyPressed key => exact inv_handleKey g g1 key hi h
  | update elapsedMs expired =>
    simp only [step, update] at h
    split at h
    · simp only [Option.some.injEq] at h
      exact h ▸ hi
    · split at h
      · exact inv_tick g g1 expired hi h
      · simp only [Option.some.injEq] at h
        exact h ▸ hi

theorem inv_construct (gen : List Sample) (file : Option Int) (g : SnakeGame)
    (h : construct gen file = some g) : Inv g :=
  inv_initializeGame _ _ h

theorem inv_reachable (g : SnakeGame) (h : Reachable g) : Inv g := by
  induction h with
  | init gen file g hc => exact inv_construct gen file g hc
  | next g g1 e _ hstep ih => exact inv_step g g1 e ih hstep

/-! ## Reachability of concrete states -/

theorem reachable_run (g g1 : SnakeGame) (es : List Event) (hr : Reachable g)
    (h : run g es = some g1) : Reachable g1 := by
  induction es generalizing g with
  | nil =>
    simp only [run, Option.some.injEq] at h
    exact h ▸ hr
  | cons e es ih =>
    simp only [run] at h
    split at h
    · simp at h
    · rename_i g2 hstep
      exact ih g2 (Reachable.next g g2 e hr hstep) h

theorem reachable_of_run (gen : List Sample) (file : Option Int) (es : List Event)
    (g : SnakeGame) (h : (construct gen file).bind (fun g0 => run g0 es) = some g) :
    Reachable g := by
  simp only [Option.bind_eq_some] at h
  obtain ⟨g0, h0, h1⟩ := h
  exact reachable_run g0 g es (Reachable.init gen file g0 h0) h1

theorem overlapState_run :
    (construct overlapGen none).bind (fun g0 => run g0 overlapEvents) = some overlapState := by
  decide

theorem overlapState_reachable : Reachable overlapState :=
  reachable_of_run overlapGen none overlapEvents overlapState overlapState_run

/-! ## The effect of one tick -/

theorem updateSpecialFood_fields (g : SnakeGame) (expired : Bool) :
    (updateSpecialFood g expired).snake = g.snake ∧
    (updateSpecialFood g expired).currentState = g.currentState ∧
    (updateSpecialFood g expired).highScore = g.highScore ∧
    (updateSpecialFood g expired).score = g.score ∧
    (updateSpecialFood g expired).gameSpeed = g.gameSpeed ∧
    (updateSpecialFood g expired).direction = g.direction ∧
    (updateSpecialFood g expired).nextDirection = g.nextDirection ∧
    (updateSpecialFood g expired).food = g.food := by
  unfold updateSpecialFood
  split <;> simp

/-- What one tick does to the fields of the record, for a snake `head :: tail`. -/
theorem tick_effect (g g5 : SnakeGame) (expired : Bool) (h : tick g expired = some g5) :
    ∃ head tail, g.snake = head :: tail ∧
      g5.currentState = (afterCollisions g head tail).currentState ∧
      g5.highScore = (afterCollisions g head tail).highScore ∧
      g5.direction = g.nextDirection ∧ g5.nextDirection = g.nextDirection ∧
      g5.gameSpeed =
        (if movedHead head g.nextDirection = g.food
         then (if g.gameSpeed > 50 then g.gameSpeed - 5 else g.gameSpeed) else g.gameSpeed) ∧
      g5.snake.length = g.snake.length
        + (if movedHead head g.nextDirection = g.food then 1 else 0)
        + (if g.hasSpecialFood = true ∧ movedHead head g.nextDirection = g.specialFood ∧
              ¬ (movedHead head g.nextDirection = g.food ∧ (g.score + 1) % 10 = 0)
           then 2 else 0) ∧
      g5.score = g.score
        + (if movedHead head g.nextDirection = g.food then 1 else 0)
        + (if g.hasSpecialFood = true ∧ movedHead head g.nextDirection = g.specialFood ∧
              ¬ (movedHead head g.nextDirection = g.food ∧ (g.score + 1) % 10 = 0)
           then 5 else 0) := by
  obtain ⟨head, tail, g3, g4, hs, hg3, hg4, rfl⟩ := tick_some g g5 expired h
  obtain ⟨a1, a2, a3, a4, a5, a6, a7, a8, a9, a10⟩ := afterCollisions_fields g head tail
  obtain ⟨u1, u2, u3, u4, u5, u6, u7, u8⟩ := updateSpecialFood_fields g4 expired
  have hlen : (movedHead head g.nextDirection :: (head :: tail).dropLast).length
      = g.snake.length := by
    rw [hs]; simp
  refine ⟨head, tail, hs, ?_⟩
  rw [u1, u2, u3, u4, u5, u6, u7]
  rcases checkRegularFood_cases _ g3 _ hg3 with
    ⟨hne, rfl⟩ | ⟨heq, b, f, rest, hb, hgen, ⟨hsc, rfl⟩ | ⟨hsc, sp, rest1, hgen1, rfl⟩⟩
  · rw [a2] at hne
    rcases checkSpecialFood_cases _ g4 _ hg4 with ⟨hns, rfl⟩ | ⟨hhas, hsp, b2, hb2, rfl⟩
    · rw [a3, a4] at hns
      have hns2 : ¬ (g.hasSpecialFood = true ∧ movedHead head g.nextDirection = g.specialFood ∧
          ¬ (movedHead head g.nextDirection = g.food ∧ (g.score + 1) % 10 = 0)) :=
        fun hc => hns ⟨hc.1, hc.2.1⟩
      rw [if_neg hne, if_neg hne, if_neg hne, if_neg hns2, if_neg hns2, a1, a5, a6, a7, a8, hlen]
      simp
    · rw [a3] at hsp
      rw [a4] at hhas
      have hs2 : g.hasSpecialFood = true ∧ movedHead head g.nextDirection = g.specialFood ∧
          ¬ (movedHead head g.nextDirection = g.food ∧ (g.score + 1) % 10 = 0) :=
        ⟨hhas, hsp, fun hc => hne hc.1⟩
      rw [if_neg hne, if_neg hne, if_neg hne, if_pos hs2, if_pos hs2]
      dsimp only
      rw [a1, a5, a6, a7, a8]
      simp only [List.length_append, hlen, List.length_singleton]
      simp
  · rw [a2] at heq
    rw [a8] at hsc
    have hnb : ¬ (movedHead head g.nextDirection = g.food ∧ (g.score + 1) % 10 = 0) :=
      fun hc => hsc hc.2
    rcases checkSpecialFood_cases _ g4 _ hg4 with ⟨hns, rfl⟩ | ⟨hhas, hsp, b2, hb2, rfl⟩
    · dsimp only at hns
      rw [a3, a4] at hns
      have hns2 : ¬ (g.hasSpecialFood = true ∧ movedHead head g.nextDirection = g.specialFood ∧
          ¬ (movedHead head g.nextDirection = g.food ∧ (g.score + 1) % 10 = 0)) :=
        fun hc => hns ⟨hc.1, hc.2.1⟩
      rw [if_pos heq, if_pos heq, if_pos heq, if_neg hns2, if_neg hns2]
      dsimp only
      rw [a1, a5, a6, a7, a8]
      simp only [List.length_append, hlen, List.length_singleton]
      simp
    · dsimp only at hhas hsp
      rw [a3] at hsp
      rw [a4] at hhas
      have hs2 : g.hasSpecialFood = true ∧ movedHead head g.nextDirection = g.specialFood ∧
          ¬ (movedHead head g.nextDirection = g.food ∧ (g.score + 1) % 10 = 0) :=
        ⟨hhas, hsp, hnb⟩
      rw [if_pos heq, if_pos heq, if_pos heq, if_pos hs2, if_pos hs2]
      dsimp only
      rw [a1, a5, a6, a7, a8]
      simp only [List.length_append, hlen, List.length_singleton]
      simp
  · rw [a2] at heq
    rw [a8] at hsc
    have hnb : ¬ (g.hasSpecialFood = true ∧ movedHead head g.nextDirection = g.specialFood ∧
        ¬ (movedHead head g.nextDirection = g.food ∧ (g.score + 1) % 10 = 0)) :=
      fun hc => hc.2.2 ⟨heq, hsc⟩
    obtain ⟨soff, -, -, -⟩ := generateSpecialFoodLoop_spec _ _ _ _ _ hgen1
    rw [a1] at soff
    have hfresh : movedHead head g.nextDirection ≠ sp := by
      intro hc
      apply soff
      rw [← hc]
      simp
    rcases checkSpecialFood_cases _ g4 _ hg4 with ⟨hns, rfl⟩ | ⟨hhas, hsp, b2, hb2, rfl⟩
    · rw [if_pos heq, if_pos heq, if_pos heq, if_neg hnb, if_neg hnb]
      dsimp only
      rw [a1, a5, a6, a7, a8]
      simp only [List.length_append, hlen, List.length_singleton]
      simp
    · exact absurd hsp hfresh

theorem turnStart_reachable : Reachable turnStart :=
  reachable_of_run turnGen none [Event.keyPressed Key.Enter] turnStart (by decide)

theorem turnAfterTick_reachable : Reachable turnAfterTick :=
  Reachable.next turnStart turnAfterTick (Event.update 200 false) turnStart_reachable
    (by decide)

/-! ## C1: snake length across a tick -/

/-- Outside the overlap of the two food items a tick changes the length as the
specification says: by 0 off food, by 1 on the regular food, by 2 on a present special
food.  The case left out is a head on both items at once. -/
theorem tick_length_foods_apart (g g1 : SnakeGame) (head : Position) (tail : List Position)
    (elapsedMs : Int) (expired : Bool) (hplay : g.currentState = GameState.PLAYING)
    (hfire : elapsedMs ≥ g.gameSpeed) (hs : g.snake = head :: tail)
    (hapart : ¬ (g.hasSpecialFood = true ∧ g.specialFood = g.food))
    (h : update g elapsedMs expired = some g1) :
    (movedHead head g.nextDirection ≠ g.food →
      ¬ (g.hasSpecialFood = true ∧ movedHead head g.nextDirection = g.specialFood) →
      g1.snake.length = g.snake.length) ∧
    (movedHead head g.nextDirection = g.food → g1.snake.length = g.snake.length + 1) ∧
    (g.hasSpecialFood = true ∧ movedHead head g.nextDirection = g.specialFood →
      g1.snake.length = g.snake.length + 2) := by
  unfold update at h
  rw [if_neg (not_not.2 hplay), if_pos hfire] at h
  obtain ⟨head1, tail1, hs1, -, -, -, -, -, hlen, -⟩ := tick_effect g g1 expired h
  rw [hs] at hs1
  simp only [List.cons.injEq] at hs1
  obtain ⟨rfl, rfl⟩ := hs1
  refine ⟨?_, ?_, ?_⟩
  · intro hf hsp
    rw [hlen, if_neg hf, if_neg (fun hc => hsp ⟨hc.1, hc.2.1⟩)]
    rfl
  · intro hf
    have hsp : ¬ (g.hasSpecialFood = true ∧ movedHead head g.nextDirection = g.specialFood ∧
        ¬ (movedHead head g.nextDirection = g.food ∧ (g.score + 1) % 10 = 0)) :=
      fun hc => hapart ⟨hc.1, hc.2.1 ▸ hf⟩
    rw [hlen, if_pos hf, if_neg hsp]
  · intro hsp
    have hf : movedHead head g.nextDirection ≠ g.food :=
      fun hc => hapart ⟨hsp.1, hsp.2 ▸ hc⟩
    rw [hlen, if_neg hf, if_pos ⟨hsp.1, hsp.2, fun hc => hf hc.1⟩]

/-- The scenario of the specification: the snake (10,10),(9,10),(8,10) moving right with
the food at (11,10) has length 4 and one more point after the tick. -/
theorem scenario_food_tick (g : SnakeGame) (hplay : g.currentState = GameState.PLAYING)
    (hs : g.snake = [⟨10, 10⟩, ⟨9, 10⟩, ⟨8, 10⟩]) (hd : g.nextDirection = Direction.RIGHT)
    (hf : g.food = ⟨11, 10⟩) (hsp : g.hasSpecialFood = false) (g1 : SnakeGame)
    (expired : Bool) (h : update g g.gameSpeed expired = some g1) :
    g1.snake.length = 4 ∧ g1.score = g.score + 1 ∧ g1.snake.head? = some ⟨11, 10⟩ := by
  unfold update at h
  rw [if_neg (not_not.2 hplay), if_pos (le_refl _)] at h
  obtain ⟨head, tail, g3, g4, hs1, hg3, hg4, rfl⟩ := tick_some g g1 expired h
  obtain ⟨head1, tail1, hs2, -, -, -, -, -, hlen, hscore⟩ := tick_effect g _ expired h
  rw [hs1] at hs2
  simp only [List.cons.injEq] at hs2
  obtain ⟨rfl, rfl⟩ := hs2
  rw [hs] at hs1
  simp only [List.cons.injEq] at hs1
  obtain ⟨rfl, rfl⟩ := hs1
  have hmh : movedHead ⟨10, 10⟩ g.nextDirection = g.food := by
    rw [hd, hf]; rfl
  have hnsp : ¬ (g.hasSpecialFood = true ∧ movedHead ⟨10, 10⟩ g.nextDirection = g.specialFood ∧
      ¬ (movedHead ⟨10, 10⟩ g.nextDirection = g.food ∧ (g.score + 1) % 10 = 0)) := by
    rw [hsp]; simp
  rw [if_pos hmh, if_neg hnsp] at hlen hscore
  refine ⟨by rw [hlen, hs]; rfl, by rw [hscore]; simp, ?_⟩
  obtain ⟨u1, -⟩ := updateSpecialFood_fields g4 expired
  rw [u1]
  obtain ⟨a1, -⟩ := afterCollisions_fields g ⟨10, 10⟩ [⟨9, 10⟩, ⟨8, 10⟩]
  have h3 : g3.snake.head? = some ⟨11, 10⟩ := by
    rcases checkRegularFood_cases _ g3 _ hg3 with
      ⟨hne, rfl⟩ | ⟨heq, b, f, rest, hb, hgen, ⟨hsc, rfl⟩ | ⟨hsc, sp, rest1, hgen1, rfl⟩⟩
    · rw [a1, hd]; rfl
    · dsimp only; rw [a1, hd]; rfl
    · dsimp only; rw [a1, hd]; rfl
  rcases checkSpecialFood_cases _ g4 _ hg4 with ⟨hns, rfl⟩ | ⟨hhas, hsp, b2, hb2, rfl⟩
  · exact h3
  · dsimp only
    cases hsn : g3.snake with
    | nil => rw [hsn] at h3; simp at h3
    | cons x xs => rw [hsn] at h3; simpa using h3

/-- C1 (code defect).  In the reachable Playing state `overlapState` the regular food has
been respawned on the cell of the special food that is still present; the next tick moves
the head onto that cell and the snake grows from 14 to 17 segments, where the claim allows
a growth of 1 or of 2 only. -/
theorem C1_overlap_tick_grows_by_three :
    Reachable overlapState ∧ overlapState.currentState = GameState.PLAYING ∧
    overlapState.snake.length = 14 ∧
    (moveSnake { overlapState with direction := overlapState.nextDirection }).map
      (fun g => g.snake.head?) = some (some overlapState.food) ∧
    overlapState.hasSpecialFood = true ∧ overlapState.specialFood = overlapState.food ∧
    (update overlapState 200 false).map (fun g => g.snake.length) = some 17 :=
  ⟨overlapState_reachable, by decide, by decide, by decide, by decide, by decide, by decide⟩

/-! ## C2: no reversal -/

theorem handleKey_direction (g g1 : SnakeGame) (key : Key)
    (hm : g.currentState ≠ GameState.MENU) (h : handleKey g key = some g1) :
    g1.direction = g.direction := by
  unfold handleKey at h
  split at h
  · rename_i hc
    exact absurd hc hm
  · simp only [Option.some.injEq] at h
    subst h
    unfold handlePlayingInput
    split
    · rfl
    · split
      all_goals (try split)
      all_goals rfl
  · simp only [Option.some.injEq] at h
    subst h
    unfold handlePausedInput
    split
    · rfl
    · split <;> rfl
  · simp only [Option.some.injEq] at h
    subst h
    unfold handleGameOverInput
    split <;> rfl

theorem pressKeys_direction (g g1 : SnakeGame) (keys : List Key)
    (hrun : pressKeys g keys = some g1) (hsame : sameRun g keys = true) :
    g1.direction = g.direction := by
  induction keys generalizing g with
  | nil =>
    simp only [pressKeys, List.map_nil, run, Option.some.injEq] at hrun
    rw [← hrun]
  | cons key keys ih =>
    simp only [pressKeys, List.map_cons, run, step] at hrun
    simp only [sameRun, Bool.and_eq_true, decide_eq_true_eq] at hsame
    obtain ⟨hm, hrest⟩ := hsame
    cases hk : handleKey g key with
    | none => rw [hk] at hrun; simp at hrun
    | some g2 =>
      rw [hk] at hrun hrest
      dsimp only at hrun hrest
      rw [ih g2 hrun hrest]
      exact handleKey_direction g g2 key hm hk

theorem update_fires (g : SnakeGame) (elapsedMs : Int) (expired : Bool)
    (hplay : g.currentState = GameState.PLAYING) (hfire : elapsedMs ≥ g.gameSpeed) :
    update g elapsedMs expired = tick g expired := by
  unfold update
  rw [if_neg (not_not.2 hplay), if_pos hfire]

/-- C2.  In every reachable state the requested direction is not the reverse of the
committed one; so the directions committed by two consecutive ticks of a run are never
opposite, whatever keys are pressed in between; and with committed direction Right a
Left or A key press leaves the requested direction as it is. -/
theorem C2_no_reversal :
    (∀ g, Reachable g → g.nextDirection ≠ opposite g.direction) ∧
    (∀ (g0 g1 g2 g3 : SnakeGame) (ms0 ms : Int) (ex0 ex : Bool) (keys : List Key),
      Reachable g0 → g0.currentState = GameState.PLAYING → ms0 ≥ g0.gameSpeed →
      update g0 ms0 ex0 = some g1 →
      pressKeys g1 keys = some g2 → sameRun g1 keys = true →
      g2.currentState = GameState.PLAYING → ms ≥ g2.gameSpeed →
      update g2 ms ex = some g3 →
      g1.direction = g0.nextDirection ∧ g3.direction = g2.nextDirection ∧
        g3.direction ≠ opposite g1.direction) ∧
    (∀ g : SnakeGame, g.direction = Direction.RIGHT →
      (handlePlayingInput g Key.Left).nextDirection = g.nextDirection ∧
      (handlePlayingInput g Key.A).nextDirection = g.nextDirection ∧
      (handlePlayingInput g Key.Left).direction = Direction.RIGHT ∧
      (handlePlayingInput g Key.A).direction = Direction.RIGHT) := by
  refine ⟨fun g hr => (inv_reachable g hr).dir_ok, ?_, ?_⟩
  · intro g0 g1 g2 g3 ms0 ms ex0 ex keys hr hp0 hf0 hu0 hkeys hsame hp2 hf2 hu2
    rw [update_fires g0 ms0 ex0 hp0 hf0] at hu0
    rw [update_fires g2 ms ex hp2 hf2] at hu2
    obtain ⟨_, _, _, _, _, hd1, _, _⟩ := tick_effect g0 g1 ex0 hu0
    obtain ⟨_, _, _, _, _, hd3, _, _⟩ := tick_effect g2 g3 ex hu2
    have hr1 : Reachable g1 :=
      Reachable.next g0 g1 (Event.update ms0 ex0) hr
        (by simp only [step]; rw [update_fires g0 ms0 ex0 hp0 hf0]; exact hu0)
    have hr2 : Reachable g2 := reachable_run g1 g2 _ hr1 hkeys
    have hdir := pressKeys_direction g1 g2 keys hkeys hsame
    refine ⟨hd1, hd3, ?_⟩
    rw [hd3, ← hdir]
    exact (inv_reachable g2 hr2).dir_ok
  · intro g hd
    unfold handlePlayingInput
    simp [hd]

/-- C2 at a concrete run: after a tick to the right, the keys Left, Up, A are pressed; the
next tick commits Up, not Left. -/
theorem C2_no_reversal_witness :
    Reachable turnStart ∧ turnStart.currentState = GameState.PLAYING ∧
    update turnStart 200 false = some turnAfterTick ∧
    sameRun turnAfterTick [Key.Left, Key.Up, Key.A] = true ∧
    ((pressKeys turnAfterTick [Key.Left, Key.Up, Key.A]).bind
        (fun g2 => update g2 200 false)).map (fun g3 => g3.direction) = some Direction.UP ∧
    Direction.UP ≠ opposite turnAfterTick.direction :=
  ⟨turnStart_reachable, by decide, by decide, by decide, by decide,
    (C2_no_reversal.2.1 turnStart turnAfterTick
      { turnAfterTick with nextDirection := Direction.UP }
      { turnAfterTick with
          nextDirection := Direction.UP
          direction := Direction.UP
          snake := [⟨21, 14⟩, ⟨21, 15⟩, ⟨20, 15⟩, ⟨19, 15⟩] }
      200 200 false false [Key.Left, Key.Up, Key.A]
      turnStart_reachable (by decide) (by decide) (by decide) (by decide) (by decide)
      (by decide) (by decide) (by decide)).2.2⟩

/-! ## C3: when a tick ends the run -/

theorem collides_iff (head : Position) (body : List Position) :
    Collides (head :: body) ↔ onWall head ∨ head ∈ body := by
  have e1 : GRID_WIDTH - 1 = 39 := by decide
  have e2 : GRID_HEIGHT - 1 = 29 := by decide
  unfold Collides onWall
  rw [e1, e2]
  constructor
  · rintro ⟨h, hh, hc⟩
    simp only [List.head?_cons, Option.some.injEq] at hh
    subst hh
    rcases hc with hc | hc | hc | hc | ⟨i, hi, hget⟩
    · exact Or.inl (Or.inl hc)
    · exact Or.inl (Or.inr (Or.inl hc))
    · exact Or.inl (Or.inr (Or.inr (Or.inl hc)))
    · exact Or.inl (Or.inr (Or.inr (Or.inr hc)))
    · right
      obtain ⟨j, rfl⟩ : ∃ j, i = j + 1 := ⟨i - 1, by omega⟩
      rw [List.getElem?_cons_succ] at hget
      exact List.getElem?_mem hget
  · intro hc
    refine ⟨head, rfl, ?_⟩
    rcases hc with (hc | hc | hc | hc) | hc
    · exact Or.inl hc
    · exact Or.inr (Or.inl hc)
    · exact Or.inr (Or.inr (Or.inl hc))
    · exact Or.inr (Or.inr (Or.inr (Or.inl hc)))
    · obtain ⟨j, hj⟩ := List.mem_iff_getElem?.1 hc
      exact Or.inr (Or.inr (Or.inr (Or.inr ⟨j + 1, by omega, by
        rw [List.getElem?_cons_succ]; exact hj⟩)))

theorem afterCollisions_state (g : SnakeGame) (head : Position) (tail : List Position) :
    (afterCollisions g head tail).currentState =
      (if onWall (movedHead head g.nextDirection) ∨
          movedHead head g.nextDirection ∈ (head :: tail).dropLast
       then GameState.GAME_OVER else g.currentState) ∧
    (afterCollisions g head tail).highScore =
      (if onWall (movedHead head g.nextDirection) ∨
          movedHead head g.nextDirection ∈ (head :: tail).dropLast
       then max g.highScore g.score else g.highScore) := by
  unfold afterCollisions
  split
  · obtain ⟨-, -, -, -, -, -, -, -, -, -, a11, a12⟩ := gameOver_fields (movedGame g head tail)
    exact ⟨a11, a12⟩
  · exact ⟨rfl, rfl⟩

theorem growSnake_isSome (g : SnakeGame) (hne : g.snake ≠ []) :
    ∃ g1, growSnake g = some g1 ∧ g1.snake ≠ [] := by
  unfold growSnake
  cases hl : g.snake.getLast? with
  | none => exact absurd (List.getLast?_eq_none_iff.1 hl) hne
  | some b => exact ⟨_, rfl, by simp⟩

theorem checkSpecialFood_isSome (g : SnakeGame) (head : Position) (hne : g.snake ≠ []) :
    (checkSpecialFood g head).isSome = true := by
  unfold checkSpecialFood
  split
  · obtain ⟨g1, h1, hne1⟩ := growSnake_isSome { g with score := g.score + 5 } hne
    obtain ⟨g2, h2, -⟩ := growSnake_isSome g1 hne1
    simp [h1, h2]
  · rfl

theorem checkRegularFood_off (g : SnakeGame) (head : Position) (hoff : head ≠ g.food) :
    checkRegularFood g head = some g := by
  unfold checkRegularFood
  rw [if_neg (fun hc => hoff ((Position.eq_iff _ _).1 hc))]

theorem tick_eq (g : SnakeGame) (head : Position) (tail : List Position) (expired : Bool)
    (hs : g.snake = head :: tail) :
    tick g expired =
      ((checkRegularFood (afterCollisions g head tail) (movedHead head g.nextDirection)).bind
        (fun g3 => checkSpecialFood g3 (movedHead head g.nextDirection))).map
        (fun g4 => updateSpecialFood g4 expired) := by
  unfold tick
  rw [moveSnake_eq g head tail hs]
  simp only [Option.bind_eq_bind, Option.some_bind]
  rw [checkCollisions_eq (movedGame g head tail) (movedHead head g.nextDirection)
    ((head :: tail).dropLast) rfl]
  simp only [Option.some_bind]
  obtain ⟨a1, -⟩ := afterCollisions_fields g head tail
  change (checkFood (afterCollisions g head tail)).bind _ = _
  unfold checkFood
  rw [a1]
  simp only [Option.bind_eq_bind]
  cases checkRegularFood (afterCollisions g head tail) (movedHead head g.nextDirection) with
  | none => rfl
  | some g3 =>
    simp only [Option.some_bind]
    cases checkSpecialFood g3 (movedHead head g.nextDirection) <;> rfl

theorem tick_isSome_off_food (g : SnakeGame) (head : Position) (tail : List Position)
    (expired : Bool) (hs : g.snake = head :: tail)
    (hoff : movedHead head g.nextDirection ≠ g.food) : (tick g expired).isSome = true := by
  rw [tick_eq g head tail expired hs]
  obtain ⟨a1, a2, -⟩ := afterCollisions_fields g head tail
  rw [checkRegularFood_off _ _ (by rw [a2]; exact hoff)]
  simp only [Option.some_bind, Option.isSome_map']
  exact checkSpecialFood_isSome _ _ (by rw [a1]; simp)

/-- C3.  For a Playing state with a non-empty snake on which a tick fires, the snake after
`moveSnake` exists, and the state after the tick is GameOver exactly when the moved snake
collides (head at or beyond the boundary, or equal to a segment at index at least 1), and
Playing otherwise.  The tick returns whenever the moved head is not on the regular food. -/
theorem C3_terminal_iff_collision (g : SnakeGame) (elapsedMs : Int) (expired : Bool)
    (hplay : g.currentState = GameState.PLAYING) (hne : g.snake ≠ [])
    (hfire : elapsedMs ≥ g.gameSpeed) :
    ∃ gm, moveSnake { g with direction := g.nextDirection } = some gm ∧
      (∀ g1, update g elapsedMs expired = some g1 →
        (g1.currentState = GameState.GAME_OVER ↔ Collides gm.snake) ∧
        (¬ Collides gm.snake → g1.currentState = GameState.PLAYING)) ∧
      (gm.snake.head? ≠ some g.food → (update g elapsedMs expired).isSome = true) := by
  obtain ⟨head, tail, hs⟩ := List.exists_cons_of_ne_nil hne
  · refine ⟨movedGame g head tail, moveSnake_eq g head tail hs, ?_, ?_⟩
    · intro g1 h
      rw [update_fires g elapsedMs expired hplay hfire] at h
      obtain ⟨head1, tail1, hs1, hst, -⟩ := tick_effect g g1 expired h
      rw [hs] at hs1
      simp only [List.cons.injEq] at hs1
      obtain ⟨rfl, rfl⟩ := hs1
      rw [(afterCollisions_state g head tail).1] at hst
      have hsn : (movedGame g head tail).snake
          = movedHead head g.nextDirection :: (head :: tail).dropLast := rfl
      rw [hsn, collides_iff]
      by_cases hc : onWall (movedHead head g.nextDirection) ∨
          movedHead head g.nextDirection ∈ (head :: tail).dropLast
      · rw [if_pos hc] at hst
        exact ⟨⟨fun _ => hc, fun _ => hst⟩, fun hn => absurd hc hn⟩
      · rw [if_neg hc, hplay] at hst
        refine ⟨⟨fun hgo => ?_, fun hcc => absurd hcc hc⟩, fun _ => hst⟩
        rw [hst] at hgo
        exact absurd hgo (by decide)
    · intro hoff
      rw [update_fires g elapsedMs expired hplay hfire]
      apply tick_isSome_off_food g head tail expired hs
      intro hc
      apply hoff
      show (movedHead head g.nextDirection :: (head :: tail).dropLast).head? = some g.food
      rw [← hc]
      rfl

/-- C3 at a concrete tick: `turnAfterTick` moves right to (22,15), which is no collision,
and the state stays Playing. -/
theorem C3_terminal_iff_collision_witness :
    turnAfterTick.currentState = GameState.PLAYING ∧ turnAfterTick.snake ≠ [] ∧
    (200 : Int) ≥ turnAfterTick.gameSpeed ∧
    ∃ gm, moveSnake { turnAfterTick with direction := turnAfterTick.nextDirection } = some gm ∧
      (∀ g1, update turnAfterTick 200 false = some g1 →
        (g1.currentState = GameState.GAME_OVER ↔ Collides gm.snake) ∧
        (¬ Collides gm.snake → g1.currentState = GameState.PLAYING)) ∧
      (gm.snake.head? ≠ some turnAfterTick.food →
        (update turnAfterTick 200 false).isSome = true) :=
  ⟨by decide, by decide, by decide,
    C3_terminal_iff_collision turnAfterTick 200 false (by decide) (by decide) (by decide)⟩

/-! ## C4: food is never on the snake -/

theorem generateSpecialFoodLoop_isSome (snake : List Position) (food : Position)
    (gen : List Sample)
    (h : ∃ r ∈ gen, (⟨xDist r, yDist r⟩ : Position) ∉ snake ∧
      (⟨xDist r, yDist r⟩ : Position) ≠ food) :
    (generateSpecialFoodLoop snake food gen).isSome = true := by
  induction gen with
  | nil => simp at h
  | cons r more ih =>
    simp only [generateSpecialFoodLoop]
    split
    · rename_i hocc
      apply ih
      obtain ⟨q, hq, hfree, hne⟩ := h
      rcases List.mem_cons.1 hq with rfl | hq
      · simp only [Bool.or_eq_true] at hocc
        rcases hocc with hocc | hocc
        · exact absurd ((isSnakePosition_iff _ _).1 hocc) hfree
        · exact absurd ((Position.eq_iff _ _).1 hocc) hne
      · exact ⟨q, hq, hfree, hne⟩
    · rfl

/-- C4.  In every reachable state the regular food is on no snake segment and a present
special food is on no snake segment; the position chosen by `generateFood` and by
`generateSpecialFood` is on no segment of the snake at generation time; and either
function returns as soon as the generator offers one acceptable cell. -/
theorem C4_food_off_snake :
    (∀ g, Reachable g →
      g.food ∉ g.snake ∧ (g.hasSpecialFood = true → g.specialFood ∉ g.snake)) ∧
    (∀ g g1, generateFood g = some g1 → g1.food ∉ g.snake ∧ g1.snake = g.snake) ∧
    (∀ g g1, generateSpecialFood g = some g1 →
      g1.specialFood ∉ g.snake ∧ g1.snake = g.snake ∧ g1.hasSpecialFood = true) ∧
    (∀ g : SnakeGame, (∃ r ∈ g.gen, (⟨xDist r, yDist r⟩ : Position) ∉ g.snake) →
      (generateFood g).isSome = true) ∧
    (∀ g : SnakeGame, (∃ r ∈ g.gen, (⟨xDist r, yDist r⟩ : Position) ∉ g.snake ∧
        (⟨xDist r, yDist r⟩ : Position) ≠ g.food) →
      (generateSpecialFood g).isSome = true) := by
  refine ⟨fun g hr => ⟨(inv_reachable g hr).food_off, (inv_reachable g hr).special_off⟩,
    ?_, ?_, ?_, ?_⟩
  · intro g g1 h
    unfold generateFood at h
    split at h
    · simp at h
    · rename_i f rest hgen
      simp only [Option.some.injEq] at h
      subst h
      exact ⟨(generateFoodLoop_spec _ _ _ _ hgen).1, rfl⟩
  · intro g g1 h
    unfold generateSpecialFood at h
    split at h
    · simp at h
    · rename_i f rest hgen
      simp only [Option.some.injEq] at h
      subst h
      exact ⟨(generateSpecialFoodLoop_spec _ _ _ _ _ hgen).1, rfl, rfl⟩
  · intro g h
    have := generateFoodLoop_isSome g.snake g.gen h
    unfold generateFood
    cases hl : generateFoodLoop g.snake g.gen with
    | none => rw [hl] at this; simp at this
    | some p => rfl
  · intro g h
    have := generateSpecialFoodLoop_isSome g.snake g.food g.gen h
    unfold generateSpecialFood
    cases hl : generateSpecialFoodLoop g.snake g.food g.gen with
    | none => rw [hl] at this; simp at this
    | some p => rfl

/-- C4 at a concrete state: after the first food has been eaten, the respawned food (5,5)
is not on the four-segment snake. -/
theorem C4_food_off_snake_witness :
    Reachable turnAfterTick ∧ turnAfterTick.food = ⟨5, 5⟩ ∧
    turnAfterTick.food ∉ turnAfterTick.snake :=
  ⟨turnAfterTick_reachable, rfl, (C4_food_off_snake.1 turnAfterTick turnAfterTick_reachable).1⟩

/-! ## C5: the high score after a terminal tick -/

theorem interior_not_onWall (p : Position) (h : Interior p) : ¬ onWall p := by
  have e1 : GRID_WIDTH = 40 := by decide
  have e2 : GRID_HEIGHT = 30 := by decide
  unfold Interior at h
  unfold onWall
  rw [e1, e2] at h
  rw [e1, e2]
  omega

/-- In a reachable state a colliding head is on neither food item. -/
theorem collision_off_food (g : SnakeGame) (head : Position) (tail : List Position)
    (hi : Inv g) (hs : g.snake = head :: tail)
    (hc : onWall (movedHead head g.nextDirection) ∨
      movedHead head g.nextDirection ∈ (head :: tail).dropLast) :
    movedHead head g.nextDirection ≠ g.food ∧
    ¬ (g.hasSpecialFood = true ∧ movedHead head g.nextDirection = g.specialFood) := by
  have hsub : ∀ q, q ∈ (head :: tail).dropLast → q ∈ g.snake := by
    intro q hq
    rw [hs]
    exact List.mem_of_mem_dropLast hq
  constructor
  · intro he
    rcases hc with hc | hc
    · exact interior_not_onWall _ hi.food_in (he ▸ hc)
    · exact hi.food_off (he ▸ hsub _ hc)
  · rintro ⟨hhas, he⟩
    rcases hc with hc | hc
    · exact interior_not_onWall _ (hi.special_in hhas) (he ▸ hc)
    · exact hi.special_off hhas (he ▸ hsub _ hc)

/-- C5.  For a reachable Playing state on which a tick fires: if the state after the tick
is GameOver, the tick has left the score alone and the high score is the maximum of the
previous high score and the final score; and a tick whose moved snake collides does return,
with state GameOver. -/
theorem C5_high_score_after_run (g : SnakeGame) (elapsedMs : Int) (expired : Bool)
    (hr : Reachable g) (hplay : g.currentState = GameState.PLAYING)
    (hfire : elapsedMs ≥ g.gameSpeed) :
    (∀ g1, update g elapsedMs expired = some g1 → g1.currentState = GameState.GAME_OVER →
      g1.score = g.score ∧ g1.highScore = max g.highScore g1.score) ∧
    (∀ gm, moveSnake { g with direction := g.nextDirection } = some gm → Collides gm.snake →
      ∃ g1, update g elapsedMs expired = some g1 ∧
        g1.currentState = GameState.GAME_OVER) := by
  have hi := inv_reachable g hr
  rw [update_fires g elapsedMs expired hplay hfire]
  constructor
  · intro g1 h hgo
    obtain ⟨head, tail, hs, hst, hhs, -, -, -, -, hscore⟩ := tick_effect g g1 expired h
    rw [(afterCollisions_state g head tail).1] at hst
    rw [(afterCollisions_state g head tail).2] at hhs
    by_cases hc : onWall (movedHead head g.nextDirection) ∨
        movedHead head g.nextDirection ∈ (head :: tail).dropLast
    · obtain ⟨hf, hsp⟩ := collision_off_food g head tail hi hs hc
      rw [if_neg hf, if_neg (fun hx => hsp ⟨hx.1, hx.2.1⟩)] at hscore
      rw [if_pos hc] at hhs
      have hsc : g1.score = g.score := by rw [hscore]; simp
      exact ⟨hsc, by rw [hhs, hsc]⟩
    · rw [if_neg hc, hplay] at hst
      rw [hst] at hgo
      exact absurd hgo (by decide)
  · intro gm hgm hcol
    obtain ⟨head, tail, hs⟩ := List.exists_cons_of_ne_nil hi.snake_ne
    rw [moveSnake_eq g head tail hs] at hgm
    simp only [Option.some.injEq] at hgm
    subst hgm
    have hsn : (movedGame g head tail).snake
        = movedHead head g.nextDirection :: (head :: tail).dropLast := rfl
    rw [hsn, collides_iff] at hcol
    obtain ⟨hf, -⟩ := collision_off_food g head tail hi hs hcol
    have hsome := tick_isSome_off_food g head tail expired hs hf
    cases ht : tick g expired with
    | none => rw [ht] at hsome; simp at hsome
    | some g1 =>
      refine ⟨g1, rfl, ?_⟩
      obtain ⟨head1, tail1, hs1, hst, -⟩ := tick_effect g g1 expired ht
      rw [hs] at hs1
      simp only [List.cons.injEq] at hs1
      obtain ⟨rfl, rfl⟩ := hs1
      rw [(afterCollisions_state g head tail).1, if_pos hcol] at hst
      exact hst

theorem wallState_reachable : Reachable wallState :=
  reachable_of_run [⟨4, 4⟩, ⟨4, 4⟩] none wallEvents wallState (by decide)

/-- C5 at a concrete terminal tick: from `wallState` the head reaches the top wall at
(20,0); the run ends with score 0 and high score max 0 0. -/
theorem C5_high_score_after_run_witness :
    Reachable wallState ∧ wallState.currentState = GameState.PLAYING ∧
    (200 : Int) ≥ wallState.gameSpeed ∧
    update wallState 200 false =
      some { wallState with currentState := GameState.GAME_OVER
                            snake := [⟨20, 0⟩, ⟨20, 1⟩, ⟨20, 2⟩] } ∧
    (0 : Int) = wallState.score ∧ (0 : Int) = max wallState.highScore 0 :=
  ⟨wallState_reachable, by decide, by decide, by decide,
    (C5_high_score_after_run wallState 200 false wallState_reachable (by decide)
      (by decide)).1
      { wallState with currentState := GameState.GAME_OVER
                       snake := [⟨20, 0⟩, ⟨20, 1⟩, ⟨20, 2⟩] }
      (by decide) (by decide)⟩

/-! ## C6: special food and regular food on one cell -/

/-- C6 (code defect).  The state `overlapState` is reachable (Enter, then eleven ticks),
special food is present in it, and the special food is on the very cell of the regular
food: `generateFood` has respawned the regular food without looking at the special food. -/
theorem C6_special_food_on_regular_food :
    (construct overlapGen none).bind (fun g0 => run g0 overlapEvents) = some overlapState ∧
    Reachable overlapState ∧ overlapState.hasSpecialFood = true ∧
    overlapState.specialFood = overlapState.food :=
  ⟨overlapState_run, overlapState_reachable, by decide, by decide⟩

/-! ## C7: the tick interval -/

theorem handleKey_gameSpeed (g g1 : SnakeGame) (key : Key)
    (hns : startsRun g (Event.keyPressed key) = false) (h : handleKey g key = some g1) :
    g1.gameSpeed = g.gameSpeed := by
  unfold handleKey at h
  split at h
  · rename_i hm
    unfold handleMenuInput at h
    split at h
    · rename_i hk
      simp [startsRun, hm, hk] at hns
    · split at h <;>
      · simp only [Option.some.injEq] at h
        subst h
        rfl
  · simp only [Option.some.injEq] at h
    subst h
    unfold handlePlayingInput
    split
    · rfl
    · split
      all_goals (try split)
      all_goals rfl
  · simp only [Option.some.injEq] at h
    subst h
    unfold handlePausedInput
    split
    · rfl
    · split <;> rfl
  · simp only [Option.some.injEq] at h
    subst h
    unfold handleGameOverInput
    split <;> rfl

theorem handleKey_startsRun (g g1 : SnakeGame) (key : Key)
    (hs : startsRun g (Event.keyPressed key) = true) (h : handleKey g key = some g1) :
    g1.currentState = GameState.PLAYING ∧
    g1.snake = [⟨20, 15⟩, ⟨19, 15⟩, ⟨18, 15⟩] ∧ g1.score = 0 ∧
    g1.direction = Direction.RIGHT ∧ g1.nextDirection = Direction.RIGHT ∧
    g1.gameSpeed = 200 ∧ g1.hasSpecialFood = false := by
  simp only [startsRun, Bool.and_eq_true, decide_eq_true_eq] at hs
  obtain ⟨hm, hk⟩ := hs
  unfold handleKey at h
  rw [hm] at h
  dsimp only at h
  unfold handleMenuInput at h
  rw [if_pos hk] at h
  obtain ⟨f, rest, -, rfl⟩ := initializeGame_eq _ _ h
  exact ⟨rfl, rfl, rfl, rfl, rfl, rfl, rfl⟩

theorem speed_formula_step (gs : Int) (k : Nat) (h : gs = max 50 (200 - 5 * (k : Int))) :
    (if gs > 50 then gs - 5 else gs) = max 50 (200 - 5 * ((k + 1 : Nat) : Int)) := by
  subst h
  simp only [max_def]
  push_cast
  split_ifs <;> omega

theorem step_speed_formula (g g1 : SnakeGame) (e : Event) (k : Nat)
    (hk : g.gameSpeed = max 50 (200 - 5 * (k : Int))) (h : step g e = some g1) :
    g1.gameSpeed = max 50 (200 - 5 *
      ((if startsRun g e then 0 else if picksRegularFood g e then k + 1 else k : Nat) : Int)) := by
  cases e with
  | closed =>
    simp only [step, Option.some.injEq] at h
    subst h
    simpa [startsRun, picksRegularFood] using hk
  | keyPressed key =>
    simp only [step] at h
    cases hs : startsRun g (Event.keyPressed key) with
    | true =>
      obtain ⟨-, -, -, -, -, hsp, -⟩ := handleKey_startsRun g g1 key hs h
      rw [hsp]
      simp
    | false =>
      rw [handleKey_gameSpeed g g1 key hs h]
      simpa [picksRegularFood] using hk
  | update elapsedMs expired =>
    have hns : startsRun g (Event.update elapsedMs expired) = false := rfl
    rw [hns]
    simp only [step] at h
    by_cases hplay : g.currentState = GameState.PLAYING
    · by_cases hfire : elapsedMs ≥ g.gameSpeed
      · rw [update_fires g elapsedMs expired hplay hfire] at h
        obtain ⟨head, tail, hsn, -, -, -, -, hspeed, -, -⟩ := tick_effect g g1 expired h
        rw [hspeed]
        simp only [picksRegularFood, hplay, hfire, hsn, decide_True, Bool.true_and,
          Bool.false_eq_true, if_false]
        by_cases hf : movedHead head g.nextDirection = g.food
        · rw [if_pos hf, if_pos ((Position.eq_iff _ _).2 hf)]
          exact speed_formula_step g.gameSpeed k hk
        · rw [if_neg hf, if_neg (fun hc => hf ((Position.eq_iff _ _).1 hc))]
          exact hk
      · unfold update at h
        rw [if_neg (not_not.2 hplay), if_neg hfire] at h
        simp only [Option.some.injEq] at h
        subst h
        simpa [picksRegularFood, hplay, hfire] using hk
    · unfold update at h
      rw [if_pos hplay] at h
      simp only [Option.some.injEq] at h
      subst h
      simpa [picksRegularFood, hplay] using hk

theorem runCounting_speed (g g1 : SnakeGame) (k k1 : Nat) (es : List Event)
    (hk : g.gameSpeed = max 50 (200 - 5 * (k : Int)))
    (h : runCounting g k es = some (g1, k1)) :
    run g es = some g1 ∧ g1.gameSpeed = max 50 (200 - 5 * (k1 : Int)) := by
  induction es generalizing g k with
  | nil =>
    simp only [runCounting, Option.some.injEq, Prod.mk.injEq] at h
    obtain ⟨rfl, rfl⟩ := h
    exact ⟨rfl, hk⟩
  | cons e es ih =>
    simp only [runCounting] at h
    cases hstep : step g e with
    | none => rw [hstep] at h; simp at h
    | some g2 =>
      rw [hstep] at h
      dsimp only at h
      obtain ⟨hrun, hsp⟩ := ih g2 _ (step_speed_formula g g2 e k hk hstep) h
      refine ⟨?_, hsp⟩
      simp only [run, hstep]
      exact hrun

theorem runCounting_of_run (g g1 : SnakeGame) (k : Nat) (es : List Event)
    (h : run g es = some g1) : ∃ k1, runCounting g k es = some (g1, k1) := by
  induction es generalizing g k with
  | nil =>
    simp only [run, Option.some.injEq] at h
    exact ⟨k, by rw [← h]; rfl⟩
  | cons e es ih =>
    simp only [run] at h
    cases hstep : step g e with
    | none => rw [hstep] at h; simp at h
    | some g2 =>
      rw [hstep] at h
      dsimp only at h
      obtain ⟨k1, hk1⟩ := ih g2 (if startsRun g e then 0 else if picksRegularFood g e then k + 1 else k) h
      exact ⟨k1, by simp only [runCounting, hstep]; exact hk1⟩

/-- C7.  After exactly `k` regular-food pickups since `initializeGame` the tick interval is
`max 50 (200 - 5 k)`, along every run from construction (and every run has such a count);
so every reachable state has `50 ≤ gameSpeed ≤ 200`; and no call of `update` increases
`gameSpeed`. -/
theorem C7_game_speed :
    (∀ (gen : List Sample) (file : Option Int) (g0 g : SnakeGame) (es : List Event) (k : Nat),
      construct gen file = some g0 → runCounting g0 0 es = some (g, k) →
      run g0 es = some g ∧ g.gameSpeed = max 50 (200 - 5 * (k : Int))) ∧
    (∀ (gen : List Sample) (file : Option Int) (g0 g : SnakeGame) (es : List Event),
      construct gen file = some g0 → run g0 es = some g →
      ∃ k, runCounting g0 0 es = some (g, k)) ∧
    (∀ g, Reachable g → 50 ≤ g.gameSpeed ∧ g.gameSpeed ≤ 200) ∧
    (∀ (g g1 : SnakeGame) (elapsedMs : Int) (expired : Bool),
      update g elapsedMs expired = some g1 → g1.gameSpeed ≤ g.gameSpeed) := by
  refine ⟨?_, ?_, fun g hr => ⟨(inv_reachable g hr).speed_lo, (inv_reachable g hr).speed_hi⟩, ?_⟩
  · intro gen file g0 g es k hc h
    obtain ⟨f, rest, -, rfl⟩ := initializeGame_eq _ _ hc
    exact runCounting_speed _ g 0 k es (by simp) h
  · intro gen file g0 g es _ h
    exact runCounting_of_run g0 g 0 es h
  · intro g g1 elapsedMs expired h
    unfold update at h
    split at h
    · simp only [Option.some.injEq] at h
      rw [← h]
    · split at h
      · obtain ⟨head, tail, -, -, -, -, -, hspeed, -, -⟩ := tick_effect g g1 expired h
        rw [hspeed]
        split
        · split <;> omega
        · exact le_refl _
      · simp only [Option.some.injEq] at h
        rw [← h]

/-- C7 at a concrete run: Enter and one tick that eats the food in front of the head give
one pickup and the interval 195 = max 50 (200 - 5). -/
theorem C7_game_speed_witness :
    (construct turnGen none).isSome = true ∧
    (construct turnGen none).bind
      (fun g0 => runCounting g0 0 [Event.keyPressed Key.Enter, Event.update 200 false])
      = some (turnAfterTick, 1) ∧
    turnAfterTick.gameSpeed = max 50 (200 - 5 * ((1 : Nat) : Int)) :=
  ⟨by decide, by decide,
    (C7_game_speed.1 turnGen none
      { turnStart with currentState := GameState.MENU, gen := [⟨20, 14⟩, ⟨4, 4⟩] }
      turnAfterTick [Event.keyPressed Key.Enter, Event.update 200 false] 1
      (by decide) (by decide)).2⟩

/-! ## C8: the session state machine -/

theorem handleKey_nextState (g g1 : SnakeGame) (key : Key) (h : handleKey g key = some g1) :
    g1.currentState = nextState g.currentState key := by
  cases hst : g.currentState with
  | MENU =>
    by_cases hk : key = Key.Enter ∨ key = Key.Space
    · have hs : startsRun g (Event.keyPressed key) = true := by
        simp [startsRun, hst, hk]
      rw [(handleKey_startsRun g g1 key hs h).1]
      rcases hk with rfl | rfl <;> rfl
    · unfold handleKey at h
      rw [hst] at h
      dsimp only at h
      unfold handleMenuInput at h
      rw [if_neg hk] at h
      have hn : nextState GameState.MENU key = GameState.MENU := by
        cases key <;> first | rfl | exact absurd (Or.inl rfl) hk | exact absurd (Or.inr rfl) hk
      rw [hn]
      split at h <;>
      · simp only [Option.some.injEq] at h
        subst h
        exact hst
  | PLAYING =>
    unfold handleKey at h
    rw [hst] at h
    simp only [Option.some.injEq] at h
    subst h
    unfold handlePlayingInput
    cases key <;> simp [nextState, hst] <;> split <;> simp [hst]
  | PAUSED =>
    unfold handleKey at h
    rw [hst] at h
    simp only [Option.some.injEq] at h
    subst h
    unfold handlePausedInput
    cases key <;> simp [nextState, hst]
  | GAME_OVER =>
    unfold handleKey at h
    rw [hst] at h
    simp only [Option.some.injEq] at h
    subst h
    unfold handleGameOverInput
    cases key <;> simp [nextState, hst]

/-- C8.  The session starts in Menu; a key press changes the session state exactly along
the edges of `nextState` (Menu to Playing on Enter/Space, Playing to Paused on Space,
Paused to Playing on Space/R, Paused to Menu on Q/Escape, GameOver to Menu on Enter/Space,
every other key: no change); Enter/Space in the menu re-initialises the run; every other
key press returns, and Enter/Space in the menu returns when the generator offers a cell
off the initial snake; `update` returns the record untouched when the state is not
Playing, and from Playing it leads to Playing or GameOver only; closing the window leaves
the session state alone. -/
theorem C8_state_machine :
    (∀ (gen : List Sample) (file : Option Int) (g : SnakeGame),
      construct gen file = some g → g.currentState = GameState.MENU) ∧
    (∀ (g g1 : SnakeGame) (key : Key), handleKey g key = some g1 →
      g1.currentState = nextState g.currentState key) ∧
    (∀ (g g1 : SnakeGame) (key : Key), g.currentState = GameState.MENU →
      key = Key.Enter ∨ key = Key.Space → handleKey g key = some g1 →
      g1.snake = [⟨20, 15⟩, ⟨19, 15⟩, ⟨18, 15⟩] ∧ g1.score = 0 ∧
      g1.direction = Direction.RIGHT ∧ g1.gameSpeed = 200 ∧ g1.hasSpecialFood = false) ∧
    (∀ (g : SnakeGame) (key : Key),
      ¬ (g.currentState = GameState.MENU ∧ (key = Key.Enter ∨ key = Key.Space)) →
      (handleKey g key).isSome = true) ∧
    (∀ (g : SnakeGame) (key : Key),
      (∃ r ∈ g.gen, (⟨xDist r, yDist r⟩ : Position) ∉
        ([⟨20, 15⟩, ⟨19, 15⟩, ⟨18, 15⟩] : List Position)) →
      (handleKey g key).isSome = true) ∧
    (∀ (g : SnakeGame) (elapsedMs : Int) (expired : Bool),
      g.currentState ≠ GameState.PLAYING → update g elapsedMs expired = some g) ∧
    (∀ (g g1 : SnakeGame) (elapsedMs : Int) (expired : Bool),
      g.currentState = GameState.PLAYING → update g elapsedMs expired = some g1 →
      g1.currentState = GameState.PLAYING ∨ g1.currentState = GameState.GAME_OVER) ∧
    (∀ g g1 : SnakeGame, step g Event.closed = some g1 →
      g1.currentState = g.currentState) := by
  have htotal : ∀ (g : SnakeGame) (key : Key),
      ¬ (g.currentState = GameState.MENU ∧ (key = Key.Enter ∨ key = Key.Space)) →
      (handleKey g key).isSome = true := by
    intro g key hn
    unfold handleKey
    split
    · rename_i hm
      unfold handleMenuInput
      rw [if_neg (fun hk => hn ⟨hm, hk⟩)]
      split <;> rfl
    · rfl
    · rfl
    · rfl
  refine ⟨?_, handleKey_nextState, ?_, htotal, ?_, ?_, ?_, ?_⟩
  · intro gen file g h
    obtain ⟨f, rest, -, rfl⟩ := initializeGame_eq _ _ h
    cases file <;> rfl
  · intro g g1 key hm hk h
    have hs : startsRun g (Event.keyPressed key) = true := by
      simp [startsRun, hm, hk]
    obtain ⟨-, h1, h2, h3, -, h4, h5⟩ := handleKey_startsRun g g1 key hs h
    exact ⟨h1, h2, h3, h4, h5⟩
  · intro g key hfree
    by_cases hn : g.currentState = GameState.MENU ∧ (key = Key.Enter ∨ key = Key.Space)
    · unfold handleKey
      rw [hn.1]
      dsimp only
      unfold handleMenuInput
      rw [if_pos hn.2]
      unfold initializeGame generateFood
      have e1 : GRID_WIDTH / 2 = 20 := by decide
      have e2 : GRID_HEIGHT / 2 = 15 := by decide
      simp only [e1, e2]
      norm_num
      have := generateFoodLoop_isSome [⟨20, 15⟩, ⟨19, 15⟩, ⟨18, 15⟩] g.gen hfree
      cases hl : generateFoodLoop [⟨20, 15⟩, ⟨19, 15⟩, ⟨18, 15⟩] g.gen with
      | none => rw [hl] at this; simp at this
      | some p => rfl
    · exact htotal g key hn
  · intro g elapsedMs expired hn
    unfold update
    rw [if_pos hn]
  · intro g g1 elapsedMs expired hp h
    unfold update at h
    rw [if_neg (not_not.2 hp)] at h
    split at h
    · obtain ⟨head, tail, -, hst, -⟩ := tick_effect g g1 expired h
      rw [(afterCollisions_state g head tail).1] at hst
      split at hst
      · exact Or.inr hst
      · exact Or.inl (hst.trans hp)
    · simp only [Option.some.injEq] at h
      exact Or.inl (h ▸ hp)
  · intro g g1 h
    simp only [step, Option.some.injEq] at h
    rw [← h]

/-- C8 at concrete key presses: Space pauses the running game `turnAfterTick`, and a tick
in the paused game changes nothing. -/
theorem C8_state_machine_witness :
    handleKey turnAfterTick Key.Space
      = some { turnAfterTick with currentState := GameState.PAUSED } ∧
    GameState.PAUSED = nextState turnAfterTick.currentState Key.Space ∧
    update { turnAfterTick with currentState := GameState.PAUSED } 200 false
      = some { turnAfterTick with currentState := GameState.PAUSED } :=
  ⟨by decide,
    C8_state_machine.2.1 turnAfterTick { turnAfterTick with currentState := GameState.PAUSED }
      Key.Space (by decide),
    C8_state_machine.2.2.2.2.2.1 { turnAfterTick with currentState := GameState.PAUSED }
      200 false (by decide)⟩

end SnakeGame

namespace Main

/-! ## C9: the console variant commits every requested direction -/

theorem head_after_shift (a : List Int) (stray : Int → Int) (v : Int) (h : a.length = 200) :
    readArray (shiftArray (setHead a v)) stray 0 = v := by
  cases a with
  | nil => simp at h
  | cons x rest => simp [setHead, shiftArray, readArray]

theorem head_shift_only (a : List Int) (stray : Int → Int) (h : a.length = 200) :
    readArray (shiftArray a) stray 0 = readArray a stray 0 := by
  cases a with
  | nil => simp at h
  | cons x rest => simp [shiftArray, readArray]

theorem eatFood_frame (s s1 : State) (inp : Input) (h : eatFood s inp = some s1) :
    s1.snakeX = s.snakeX ∧ s1.snakeY = s.snakeY ∧ s1.p_dir = s.p_dir ∧ s1.game = s.game ∧
    s1.body = s.body ∧
    ((readArray s.snakeX inp.strayX 0 = s.foodX ∧ readArray s.snakeY inp.strayY 0 = s.foodY) →
      s1.delayTime = s.delayTime - 5 ∧ s1.food = s.food + 1 ∧ s1.length = s.length + 1) ∧
    (¬ (readArray s.snakeX inp.strayX 0 = s.foodX ∧
        readArray s.snakeY inp.strayY 0 = s.foodY) → s1 = s) := by
  unfold eatFood at h
  split at h
  · rename_i hc
    split at h
    · simp at h
    · split at h
      · simp at h
      · simp only [Option.some.injEq] at h
        subst h
        exact ⟨rfl, rfl, rfl, rfl, rfl, fun _ => ⟨rfl, rfl, rfl⟩, fun hn => absurd hc hn⟩
  · rename_i hc
    simp only [Option.some.injEq] at h
    subst h
    exact ⟨rfl, rfl, rfl, rfl, rfl, fun hy => absurd hy hc, fun _ => rfl⟩

theorem shiftAndScan_frame (s : State) (inp : Input) :
    (shiftAndScan s inp).snakeX = shiftArray s.snakeX ∧
    (shiftAndScan s inp).snakeY = shiftArray s.snakeY ∧
    (shiftAndScan s inp).p_dir = s.p_dir ∧ (shiftAndScan s inp).delayTime = s.delayTime ∧
    (shiftAndScan s inp).food = s.food ∧ (shiftAndScan s inp).game = s.game := by
  unfold shiftAndScan
  dsimp only
  split <;> exact ⟨rfl, rfl, rfl, rfl, rfl, rfl⟩

theorem endChecks_frame (s : State) (inp : Input) :
    (endChecks s inp).snakeX = s.snakeX ∧ (endChecks s inp).snakeY = s.snakeY ∧
    (endChecks s inp).p_dir = s.p_dir ∧ (endChecks s inp).delayTime = s.delayTime ∧
    (endChecks s inp).food = s.food := by
  unfold endChecks
  dsimp only
  split <;> split <;> exact ⟨rfl, rfl, rfl, rfl, rfl⟩

theorem readKeys_range (k : Keys) :
    readKeys k = 0 ∨ readKeys k = 1 ∨ readKeys k = 2 ∨ readKeys k = 3 ∨ readKeys k = 4 := by
  unfold readKeys
  split
  · exact Or.inr (Or.inl rfl)
  · split
    · exact Or.inr (Or.inr (Or.inl rfl))
    · split
      · exact Or.inr (Or.inr (Or.inr (Or.inl rfl)))
      · split
        · exact Or.inr (Or.inr (Or.inr (Or.inr rfl)))
        · exact Or.inl rfl

theorem moveHead_spec (s : State) (inp : Input) (hx : s.snakeX.length = 200)
    (hy : s.snakeY.length = 200)
    (hk : s.key_dir = 0 ∨ s.key_dir = 1 ∨ s.key_dir = 2 ∨ s.key_dir = 3 ∨ s.key_dir = 4) :
    (moveHead s inp).p_dir = (if s.key_dir = 0 then s.p_dir else s.key_dir) ∧
    readArray (shiftArray (moveHead s inp).snakeX) inp.strayX 0
      = readArray s.snakeX inp.strayX 0 + stepX (if s.key_dir = 0 then s.p_dir else s.key_dir) ∧
    readArray (shiftArray (moveHead s inp).snakeY) inp.strayY 0
      = readArray s.snakeY inp.strayY 0 + stepY (if s.key_dir = 0 then s.p_dir else s.key_dir) ∧
    (moveHead s inp).delayTime = s.delayTime ∧ (moveHead s inp).food = s.food := by
  have sx := head_shift_only s.snakeX inp.strayX hx
  have sy := head_shift_only s.snakeY inp.strayY hy
  have mx := fun v => head_after_shift s.snakeX inp.strayX v hx
  have my := fun v => head_after_shift s.snakeY inp.strayY v hy
  unfold moveHead
  dsimp only
  rcases hk with hk | hk | hk | hk | hk
  · rw [if_pos hk, if_pos hk]
    by_cases h1 : s.p_dir = 1
    · rw [if_pos h1]
      dsimp only
      rw [mx, sy, h1]
      simp [stepX, stepY]
    · rw [if_neg h1]
      by_cases h2 : s.p_dir = 2
      · rw [if_pos h2]
        dsimp only
        rw [mx, sy, h2]
        simp [stepX, stepY]
        ring
      · rw [if_neg h2]
        by_cases h3 : s.p_dir = 3
        · rw [if_pos h3]
          dsimp only
          rw [my, sx, h3]
          simp [stepX, stepY]
          ring
        · rw [if_neg h3]
          by_cases h4 : s.p_dir = 4
          · rw [if_pos h4]
            dsimp only
            rw [my, sx, h4]
            simp [stepX, stepY]
          · rw [if_neg h4]
            dsimp only
            rw [sx, sy]
            simp [stepX, stepY, h1, h2, h3, h4]
  · rw [hk]
    simp only [one_ne_zero, if_false, if_true]
    rw [mx, sy]
    simp [stepX, stepY]
  · rw [hk]
    norm_num
    rw [mx, sy]
    simp [stepX, stepY]
    ring
  · rw [hk]
    norm_num
    rw [my, sx]
    simp [stepX, stepY]
    ring
  · rw [hk]
    norm_num
    rw [my, sx]
    simp [stepX, stepY]

theorem iteration_some (s s1 : State) (inp : Input) (h : iteration s inp = some s1) :
    ∃ s0, eatFood s inp = some s0 ∧
      s1 = endChecks (shiftAndScan (moveHead { s0 with key_dir := readKeys inp.keys } inp) inp)
        inp := by
  unfold iteration at h
  split at h
  · simp at h
  · rename_i s0 h0
    simp only [Option.some.injEq] at h
    exact ⟨s0, h0, h.symm⟩

set_option maxRecDepth 1000000 in
/-- C9 (counterexample).  At the start of the game the committed direction is 1 (right)
and the head is at x = 200.  With the Left key held, the requested direction is 2, the
reverse; after the pass the committed direction is 2 and the head is at x = 190: the
request has been committed and the head has moved left, not right. -/
theorem C9_reverse_request_is_committed :
    initial zeros zeros (0 :: foodAt 140 200) = some startState ∧
    startState.p_dir = 1 ∧ readArray startState.snakeX (fun _ => -1) 0 = 200 ∧
    readKeys leftKey = 2 ∧
    (iteration startState (inputWith leftKey)).map
      (fun s => (s.game, s.p_dir, readArray s.snakeX (fun _ => -1) 0,
        readArray s.snakeY (fun _ => -1) 0)) = some (true, 2, 190, 200) := by
  refine ⟨by decide, by decide, by decide, by decide, by decide⟩

/-- C9 (amended).  In one pass of the console loop a pressed direction key is committed
whatever the committed direction was, its reverse included: `p_dir` becomes the requested
direction and the head moves 10 pixels that way.  Only when no direction key is pressed
(`key_dir = 0`) does `p_dir` keep its value, and the head moves 10 pixels along it.  The
pass returns whenever the head is not on the food. -/
theorem C9_requested_direction_is_committed (s : State) (inp : Input)
    (hx : s.snakeX.length = 200) (hy : s.snakeY.length = 200) :
    (∀ s1, iteration s inp = some s1 →
      s1.p_dir = (if readKeys inp.keys = 0 then s.p_dir else readKeys inp.keys) ∧
      readArray s1.snakeX inp.strayX 0 = readArray s.snakeX inp.strayX 0 + stepX s1.p_dir ∧
      readArray s1.snakeY inp.strayY 0 = readArray s.snakeY inp.strayY 0 + stepY s1.p_dir) ∧
    (¬ onFood s inp → (iteration s inp).isSome = true) := by
  constructor
  · intro s1 h
    obtain ⟨s0, h0, rfl⟩ := iteration_some s s1 inp h
    obtain ⟨e1, e2, e3, -⟩ := eatFood_frame s s0 inp h0
    obtain ⟨c1, c2, c3, -⟩ := endChecks_frame
      (shiftAndScan (moveHead { s0 with key_dir := readKeys inp.keys } inp) inp) inp
    obtain ⟨b1, b2, b3, -⟩ := shiftAndScan_frame
      (moveHead { s0 with key_dir := readKeys inp.keys } inp) inp
    obtain ⟨m1, m2, m3, -⟩ := moveHead_spec { s0 with key_dir := readKeys inp.keys } inp
      (by rw [← hx, ← e1]) (by rw [← hy, ← e2]) (readKeys_range inp.keys)
    dsimp only at m1 m2 m3
    rw [c1, c2, c3, b1, b2, b3, m1, m2, m3, e1, e2, e3]
    exact ⟨rfl, rfl, rfl⟩
  · intro hn
    unfold onFood at hn
    unfold iteration eatFood
    rw [if_neg hn]
    rfl

set_option maxRecDepth 1000000 in
/-- C9 (amended) at the first pass of a game with the Left key held. -/
theorem C9_requested_direction_is_committed_witness :
    startState.snakeX.length = 200 ∧ startState.snakeY.length = 200 ∧
    (iteration startState (inputWith leftKey)).isSome = true ∧
    ∀ s1, iteration startState (inputWith leftKey) = some s1 →
      s1.p_dir = (if readKeys leftKey = 0 then startState.p_dir else readKeys leftKey) ∧
      readArray s1.snakeX (fun _ => -1) 0
        = readArray startState.snakeX (fun _ => -1) 0 + stepX s1.p_dir ∧
      readArray s1.snakeY (fun _ => -1) 0
        = readArray startState.snakeY (fun _ => -1) 0 + stepY s1.p_dir :=
  ⟨by decide, by decide, by decide,
    (C9_requested_direction_is_committed startState (inputWith leftKey) (by decide)
      (by decide)).1⟩

/-! ## C10: the console variant has no floor under `delayTime` -/

theorem iteration_delay (s s1 : State) (inp : Input) (h : iteration s inp = some s1) :
    (onFood s inp → s1.delayTime = s.delayTime - 5 ∧ s1.food = s.food + 1) ∧
    (¬ onFood s inp → s1.delayTime = s.delayTime ∧ s1.food = s.food) := by
  obtain ⟨s0, h0, rfl⟩ := iteration_some s s1 inp h
  obtain ⟨-, -, -, -, -, e6, e7⟩ := eatFood_frame s s0 inp h0
  obtain ⟨-, -, -, c4, c5⟩ := endChecks_frame
    (shiftAndScan (moveHead { s0 with key_dir := readKeys inp.keys } inp) inp) inp
  obtain ⟨-, -, -, b4, b5, -⟩ := shiftAndScan_frame
    (moveHead { s0 with key_dir := readKeys inp.keys } inp) inp
  have m4 : (moveHead { s0 with key_dir := readKeys inp.keys } inp).delayTime = s0.delayTime ∧
      (moveHead { s0 with key_dir := readKeys inp.keys } inp).food = s0.food := by
    unfold moveHead
    dsimp only
    repeat' split
    all_goals exact ⟨rfl, rfl⟩
  rw [c4, c5, b4, b5, m4.1, m4.2]
  constructor
  · intro hf
    exact ⟨(e6 hf).1, (e6 hf).2.1⟩
  · intro hf
    rw [e7 hf]
    exact ⟨rfl, rfl⟩

theorem loop_delay (s s1 : State) (inputs : List Input)
    (hinv : s.delayTime = 200 - 5 * s.food ∧ 0 ≤ s.food) (h : loop s inputs = some s1) :
    s1.delayTime = 200 - 5 * s1.food ∧ 0 ≤ s1.food := by
  induction inputs generalizing s with
  | nil =>
    simp only [loop, Option.some.injEq] at h
    exact h ▸ hinv
  | cons inp rest ih =>
    simp only [loop] at h
    split at h
    · split at h
      · simp at h
      · rename_i s2 h2
        apply ih s2 _ h
        obtain ⟨d1, d2⟩ := iteration_delay s s2 inp h2
        by_cases hf : onFood s inp
        · obtain ⟨a, b⟩ := d1 hf
          constructor <;> omega
        · obtain ⟨a, b⟩ := d2 hf
          constructor <;> omega
    · simp only [Option.some.injEq] at h
      exact h ▸ hinv

set_option maxRecDepth 1000000 in
/-- C10 (counterexample).  In the game `feastInputs` the snake eats a food in 41 of the 46
passes; the game is still running, and the interval handed to `delay` in the last pass is
-5; one pass earlier it is 0.  No positive bound is kept. -/
theorem C10_delay_time_falls_below_zero :
    ((initial zeros zeros feastRand).bind (fun s0 => loop s0 feastInputs)).map
      (fun s => (s.game, s.food, s.delayTime)) = some (true, 41, -5) ∧
    ((initial zeros zeros feastRand).bind (fun s0 => loop s0 (feastInputs.take 45))).map
      (fun s => (s.game, s.food, s.delayTime)) = some (true, 40, 0) := by
  constructor <;> decide

/-- C10 (amended).  The interval `delayTime` starts at 200 and a pass lowers it by exactly
5 when the head is on the food and leaves it alone otherwise; so after `food` foods it is
`200 - 5 * food` in every state of the loop, with no floor: it is 0 at 40 foods and
negative beyond. -/
theorem C10_delay_time_is_linear (garbageX garbageY : List Int) (rand : List Nat)
    (inputs : List Input) :
    (∀ (s s1 : State) (inp : Input), iteration s inp = some s1 →
      (onFood s inp → s1.delayTime = s.delayTime - 5 ∧ s1.food = s.food + 1) ∧
      (¬ onFood s inp → s1.delayTime = s.delayTime ∧ s1.food = s.food)) ∧
    (∀ s, (initial garbageX garbageY rand).bind (fun s0 => loop s0 inputs) = some s →
      s.delayTime = 200 - 5 * s.food ∧ 0 ≤ s.food ∧
      (40 ≤ s.food → s.delayTime ≤ 0)) := by
  refine ⟨iteration_delay, ?_⟩
  intro s h
  simp only [Option.bind_eq_some] at h
  obtain ⟨s0, h0, h1⟩ := h
  have hinit : s0.delayTime = 200 - 5 * s0.food ∧ 0 ≤ s0.food := by
    unfold initial at h0
    split at h0
    · simp at h0
    · simp only [Option.some.injEq] at h0
      subst h0
      exact ⟨rfl, le_refl _⟩
  obtain ⟨a, b⟩ := loop_delay s0 s inputs hinit h1
  exact ⟨a, b, fun hc => by omega⟩

set_option maxRecDepth 1000000 in
/-- C10 (amended) at the game `feastInputs`: the loop returns, and its final state has
`delayTime = 200 - 5 * food`. -/
theorem C10_delay_time_is_linear_witness :
    ((initial zeros zeros feastRand).bind (fun s0 => loop s0 feastInputs)).isSome = true ∧
    ∀ s, (initial zeros zeros feastRand).bind (fun s0 => loop s0 feastInputs) = some s →
      s.delayTime = 200 - 5 * s.food ∧ 0 ≤ s.food ∧ (40 ≤ s.food → s.delayTime ≤ 0) :=
  ⟨by decide, (C10_delay_time_is_linear zeros zeros feastRand feastInputs).2⟩

/-! ## C11: the subscript `body` -/

theorem scanBody_hit (s : State) (inp : Input) (i j : Int) (n : Nat)
    (h : scanBody s inp i n = some j) :
    readArray s.snakeX inp.strayX 0 = readArray s.snakeX inp.strayX j ∧
    readArray s.snakeY inp.strayY 0 = readArray s.snakeY inp.strayY j := by
  induction n generalizing i with
  | zero => simp [scanBody] at h
  | succ n ih =>
    simp only [scanBody] at h
    split at h
    · rename_i hc
      simp only [Option.some.injEq] at h
      exact h ▸ hc
    · exact ih (i + 1) h

theorem moveHead_body (s : State) (inp : Input) : (moveHead s inp).body = s.body := by
  unfold moveHead
  dsimp only
  repeat' split
  all_goals rfl

theorem endChecks_body (s : State) (inp : Input) : (endChecks s inp).body = s.body := by
  unfold endChecks
  dsimp only
  split <;> split <;> rfl

theorem endChecks_hit (s : State) (inp : Input)
    (h : readArray s.snakeX inp.strayX 0 = readArray s.snakeX inp.strayX s.body ∧
      readArray s.snakeY inp.strayY 0 = readArray s.snakeY inp.strayY s.body) :
    (endChecks s inp).game = false := by
  unfold endChecks
  dsimp only
  split <;> rfl

/-- A pass after which the game goes on has left `body` alone, and its end test has
subscripted the arrays with that old `body`. -/
theorem pass_keeps_body (s s1 : State) (inp : Input) (h : iteration s inp = some s1)
    (hg : s1.game = true) : s1.body = s.body ∧ bodySubscript s inp = some s.body := by
  obtain ⟨s0, h0, rfl⟩ := iteration_some s s1 inp h
  obtain ⟨-, -, -, -, e5, -, -⟩ := eatFood_frame s s0 inp h0
  have hm := moveHead_body { s0 with key_dir := readKeys inp.keys } inp
  rw [endChecks_body]
  unfold bodySubscript
  rw [h0]
  dsimp only
  have key : (shiftAndScan (moveHead { s0 with key_dir := readKeys inp.keys } inp) inp).body
      = s.body := by
    cases hscan : scanBody
        { moveHead { s0 with key_dir := readKeys inp.keys } inp with
          snakeX := shiftArray (moveHead { s0 with key_dir := readKeys inp.keys } inp).snakeX
          snakeY := shiftArray (moveHead { s0 with key_dir := readKeys inp.keys } inp).snakeY }
        inp 2
        ((moveHead { s0 with key_dir := readKeys inp.keys } inp).length - 2).toNat with
    | none =>
      unfold shiftAndScan
      dsimp only
      rw [hscan]
      dsimp only
      rw [hm]
      exact e5
    | some j =>
      exfalso
      have hhit := scanBody_hit _ inp 2 j _ hscan
      have hgame : (endChecks
          (shiftAndScan (moveHead { s0 with key_dir := readKeys inp.keys } inp) inp)
          inp).game = false := by
        apply endChecks_hit
        unfold shiftAndScan
        dsimp only
        rw [hscan]
        exact hhit
      rw [hgame] at hg
      exact absurd hg (by decide)
  exact ⟨key, by rw [key]⟩

theorem loop_body (s s1 : State) (inputs : List Input) (hinv : s.game = true → s.body = 500)
    (h : loop s inputs = some s1) : s1.game = true → s1.body = 500 := by
  induction inputs generalizing s with
  | nil =>
    simp only [loop, Option.some.injEq] at h
    exact h ▸ hinv
  | cons inp rest ih =>
    simp only [loop] at h
    split at h
    · rename_i hgame
      split at h
      · simp at h
      · rename_i s2 h2
        apply ih s2 _ h
        intro hg2
        rw [(pass_keeps_body s s2 inp h2 hg2).1]
        exact hinv hgame
    · simp only [Option.some.injEq] at h
      exact h ▸ hinv

theorem bodySubscript_mem (s : State) (inp : Input) (b : Int)
    (h : bodySubscript s inp = some b) : ∃ l, subscripts s inp = some l ∧ b ∈ l := by
  cases he : eatFood s inp with
  | none => simp [bodySubscript, he] at h
  | some s1 =>
    simp only [bodySubscript, he, Option.some.injEq] at h
    simp only [subscripts, he, Option.some.injEq, exists_eq_left']
    simp [h]

set_option maxRecDepth 1000000 in
/-- C11 (code defect).  In the first pass of a game the end test of line 190 subscripts
`snakeX` and `snakeY` with `body = 500`, which is outside `0..199`.  More generally `body`
is 500 in every state of the loop in which the game is still on, every pass after which the
game goes on has used that `body` in its end test, and that subscript is among the
subscripts of the pass: every pass that detects no self-collision reads `snakeX[500]` and
`snakeY[500]`. -/
theorem C11_body_subscript_out_of_bounds :
    bodySubscript startState (inputWith noKeys) = some 500 ∧
    (subscripts startState (inputWith noKeys)).map (fun l => decide (500 ∈ l)) = some true ∧
    (subscripts startState (inputWith noKeys)).map (fun l => decide (∀ i ∈ l, inBounds i))
      = some false ∧
    ¬ inBounds 500 ∧
    (∀ (garbageX garbageY : List Int) (rand : List Nat) (inputs : List Input) (s : State),
      (initial garbageX garbageY rand).bind (fun s0 => loop s0 inputs) = some s →
      s.game = true → s.body = 500) ∧
    (∀ (s s1 : State) (inp : Input), s.body = 500 → iteration s inp = some s1 →
      s1.game = true → bodySubscript s inp = some 500 ∧ s1.body = 500) ∧
    (∀ (s : State) (inp : Input) (b : Int), bodySubscript s inp = some b →
      ∃ l, subscripts s inp = some l ∧ b ∈ l) := by
  refine ⟨by decide, by decide, by decide, by decide, ?_, ?_, bodySubscript_mem⟩
  · intro garbageX garbageY rand inputs s h
    simp only [Option.bind_eq_some] at h
    obtain ⟨s0, h0, h1⟩ := h
    apply loop_body s0 s inputs _ h1
    intro _
    unfold initial at h0
    split at h0
    · simp at h0
    · simp only [Option.some.injEq] at h0
      subst h0
      rfl
  · intro s s1 inp hb h hg
    obtain ⟨a, b⟩ := pass_keeps_body s s1 inp h hg
    rw [hb] at a b
    exact ⟨b, a⟩

end Main
